import Mathlib

set_option maxRecDepth 1000000

/- The Batteries rational-number operations are `@[irreducible]`, which
blocks `decide` from evaluating the (fully executable) models below on
concrete inputs; restore default transparency for them. -/
set_option allowUnsafeReducibility true in
attribute [semireducible] Rat.mul Rat.add Rat.sub Rat.inv Rat.div

/-!
StockFusion.io — verification of the holdings-extraction engine

Shallow embedding of the real-time Groww holdings extraction engine
(`backend/services/scraping/realGroww.js`), the real-time scraping service
(`backend/services/scrapingService.js`) and the stock model
(`backend/models/Stock.js`), together with theorems settling the frozen
claims about them.

Numbers are modelled as `ℚ` (the JavaScript code computes in IEEE doubles;
the spec's claims are stated "within floating-point tolerance", and every
concrete value appearing in a theorem below is exactly representable and
exactly computed in both systems).  Strings are Lean `String`s; JavaScript
`.length` agrees with `String.length` for all characters involved (all are
in the Basic Multilingual Plane, one UTF-16 unit each).
-/

namespace StockFusion

/-! ## Character and string utilities

Models of the exact JavaScript string primitives the scraper uses:
`\s` and `String.prototype.trim` whitespace, `\d`, `toLowerCase`,
`includes`, and `split(/\s+/)`. -/

/-- JavaScript `\s` / `trim` whitespace, restricted to the ASCII whitespace
characters that can occur in the scraped text. -/
def jsIsSpace (c : Char) : Bool :=
  c = ' ' ∨ c = '\t' ∨ c = '\n' ∨ c = '\r'

/-- JavaScript `\d`. -/
def jsIsDigit (c : Char) : Bool :=
  '0' ≤ c ∧ c ≤ '9'

/-- ASCII `toLowerCase` (the header keywords compared against are ASCII). -/
def jsToLower (c : Char) : Char :=
  if 'A' ≤ c ∧ c ≤ 'Z' then Char.ofNat (c.toNat + 32) else c

/-- `text.toLowerCase()` on the character list. -/
def lowerStr (cs : List Char) : List Char := cs.map jsToLower

/-- Does `cs` start with `pat`? -/
def startsWith : List Char → List Char → Bool
  | [], _ => true
  | _ :: _, [] => false
  | p :: ps, c :: cs => (p = c) && startsWith ps cs

/-- JavaScript `String.prototype.includes`. -/
def containsSub (pat : List Char) : List Char → Bool
  | [] => startsWith pat []
  | c :: cs => startsWith pat (c :: cs) || containsSub pat cs

/-- `String.prototype.trim`. -/
def trimChars (cs : List Char) : List Char :=
  ((cs.dropWhile jsIsSpace).reverse.dropWhile jsIsSpace).reverse

/-- Remove every occurrence of the characters in `bad`
(models `.replace(/[...]/g, '')`). -/
def stripChars (bad : List Char) (cs : List Char) : List Char :=
  cs.filter (fun c => ¬ bad.contains c)

/-- Fuelled worker for `splitWs`; one unit of fuel is spent per input
character at most, so `cs.length` fuel always suffices. -/
def splitWsAux : ℕ → List Char → List (List Char)
  | 0, _ => []
  | _ + 1, [] => []
  | fuel + 1, c :: cs =>
    if jsIsSpace c then splitWsAux fuel cs
    else
      (c :: cs.takeWhile (fun x => ! jsIsSpace x)) ::
        splitWsAux fuel (cs.dropWhile (fun x => ! jsIsSpace x))

/-- `text.split(/\s+/)` followed by dropping empty pieces (the caller
immediately filters on `part.length > 2`, so the possible leading empty
piece produced by JavaScript `split` is irrelevant and is dropped here). -/
def splitWs (cs : List Char) : List (List Char) :=
  splitWsAux cs.length cs

/-! ## NumericTextParser

`parseFloat` on the (already stripped) strings the scraper feeds it.
JavaScript `parseFloat` skips leading whitespace, accepts an optional
sign, digits, an optional decimal point with further digits, and stops at
the first character that does not fit; it returns `NaN` (here `none`)
when no digit was consumed.  Exponent notation is not modelled: no string
the scraper produces contains one. -/

/-- Value of a digit run. -/
def digitsVal (ds : List Char) : ℕ :=
  ds.foldl (fun acc c => 10 * acc + (c.toNat - '0'.toNat)) 0

/-- Split off the leading digit run. -/
def takeDigits (cs : List Char) : List Char × List Char :=
  (cs.takeWhile jsIsDigit, cs.dropWhile jsIsDigit)

/-- The number `ip.fp` as a rational (both arguments are digit runs). -/
def decimalVal (ip fp : List Char) : ℚ :=
  (digitsVal ip : ℚ) + (digitsVal fp : ℚ) / (10 : ℚ) ^ fp.length

/-- The unsigned part of `parseFloat`: digits, optional decimal point
with further digits; `NaN` when no digit was consumed. -/
def parseFloatCore (cs : List Char) : Option ℚ :=
  let ip := cs.takeWhile jsIsDigit
  let rest := cs.dropWhile jsIsDigit
  let fp : List Char :=
    match rest with
    | '.' :: r => r.takeWhile jsIsDigit
    | _ => []
  if ip.isEmpty ∧ fp.isEmpty then none
  else some (decimalVal ip fp)

/-- JavaScript `parseFloat`, `none` for `NaN`: skip leading whitespace,
optional sign, then the unsigned decimal part. -/
def parseFloatQ (cs : List Char) : Option ℚ :=
  match cs.dropWhile jsIsSpace with
  | '-' :: r => (parseFloatCore r).map (fun q => -q)
  | '+' :: r => parseFloatCore r
  | r => parseFloatCore r

/-! ## JavaScript numbers

The extraction code stores results of `parseFloat` into the record, some
of them unguarded, so a field can hold `NaN`.  A JavaScript number is
modelled as `Option ℚ`, `none` standing for `NaN`; comparisons against
`NaN` are false and `NaN` is falsy, exactly as in JavaScript. -/

abbrev JsNum := Option ℚ

/-- JavaScript `x > y` (false when either side is `NaN`). -/
def jGt : JsNum → JsNum → Bool
  | some a, some b => b < a
  | _, _ => false

/-- JavaScript truthiness of a number (`0` and `NaN` are falsy). -/
def jTruthy : JsNum → Bool
  | some a => a ≠ 0
  | none => false

/-- JavaScript `x * y` (`NaN` absorbs). -/
def jMul : JsNum → JsNum → JsNum
  | some a, some b => some (a * b)
  | _, _ => none

/-- JavaScript `x - y` (`NaN` absorbs). -/
def jSub : JsNum → JsNum → JsNum
  | some a, some b => some (a - b)
  | _, _ => none

/-- JavaScript `x / y`; the division-by-zero case (JavaScript `Infinity`)
is mapped to `none` — every division in the modelled code is guarded by
a strict positivity test on the divisor, so the case never arises. -/
def jDiv : JsNum → JsNum → JsNum
  | some a, some b => if b = 0 then none else some (a / b)
  | _, _ => none

/-! ## The scraper's regular expressions

Each `match`/`matchAll` call in `scrapeHoldings` is modelled by a
hand-compiled matcher with JavaScript semantics: the leftmost starting
position wins, quantifiers are greedy, and backtracking is resolved
exactly as the backtracking engine would (noted where a greedy choice is
provably the only viable one). -/

/-- Scan positions left to right, returning the first match
(JavaScript non-global `String.prototype.match`). -/
def findFirst (f : List Char → Option α) : List Char → Option α
  | [] => f []
  | c :: cs =>
    match f (c :: cs) with
    | some v => some v
    | none => findFirst f cs

/-- Case-insensitive literal: drop `pat` (given lowercase) from the
front of `cs`, or fail. -/
def dropCI (pat : List Char) (cs : List Char) : Option (List Char) :=
  match pat, cs with
  | [], cs => some cs
  | _ :: _, [] => none
  | p :: ps, c :: cs => if jsToLower c = p then dropCI ps cs else none

/-- The number token `[\d,]+(?:\.\d{2})?`: greedy run of digits/commas,
then the optional two-decimal tail if it is present.  (Backtracking to a
shorter run can never succeed for the contexts this token is used in,
since the following character would be a digit or comma.)  Returns the
captured characters and the rest of the input. -/
def numTok (cs : List Char) : Option (List Char × List Char) :=
  let run := cs.takeWhile (fun c => jsIsDigit c ∨ c = ',')
  let r1 := cs.dropWhile (fun c => jsIsDigit c ∨ c = ',')
  if run.isEmpty then none
  else
    match r1 with
    | '.' :: a :: b :: r =>
      if jsIsDigit a ∧ jsIsDigit b then some (run ++ ['.', a, b], r)
      else some (run, r1)
    | _ => some (run, r1)

/-- `parseFloat(capture.replace(/,/g, ''))` — the value the scraper
computes from a `[\d,]+(?:\.\d{2})?` capture. -/
def tokVal (g : List Char) : JsNum :=
  parseFloatQ (g.filter (fun c => c ≠ ','))

/-- `/(\d+(?:\.\d+)?)\s*shares/i` at one position; the value is
`parseFloat` of the capture (always a plain nonnegative decimal). -/
def matchSharesAt (cs : List Char) : Option ℚ :=
  let (ds, r1) := takeDigits cs
  if ds.isEmpty then none
  else
    let (v, r2) : ℚ × List Char :=
      match r1 with
      | '.' :: r =>
        let (fs, r') := takeDigits r
        if fs.isEmpty then (decimalVal ds [], r1)
        else (decimalVal ds fs, r')
      | _ => (decimalVal ds [], r1)
    match dropCI ['s','h','a','r','e','s'] (r2.dropWhile jsIsSpace) with
    | some _ => some v
    | none => none

/-- `/Avg\.\s*₹\s*([\d,]+(?:\.\d{2})?)/i` at one position. -/
def matchAvgAt (cs : List Char) : Option JsNum :=
  match dropCI ['a','v','g','.'] cs with
  | none => none
  | some r =>
    match r.dropWhile jsIsSpace with
    | '₹' :: r' =>
      match numTok (r'.dropWhile jsIsSpace) with
      | some (g, _) => some (tokVal g)
      | none => none
    | _ => none

/-- `/([+\-])₹\s*([\d,]+(?:\.\d{2})?)/` at one position; the scraper
multiplies the parsed amount by the sign. -/
def matchProfitAt (cs : List Char) : Option JsNum :=
  match cs with
  | s :: '₹' :: r =>
    if s = '+' ∨ s = '-' then
      match numTok (r.dropWhile jsIsSpace) with
      | some (g, _) =>
        some (jMul (some (if s = '+' then (1 : ℚ) else -1)) (tokVal g))
      | none => none
    else none
  | _ => none

/-- `/([+\-]?[\d,]+(?:\.\d{2})?)\s*%/` at one position; the scraper
applies `parseFloat` to the raw capture (commas NOT removed, so
`parseFloat` stops at the first comma).  Greedy order: the two-decimal
tail is tried first; a shorter digit/comma run can never succeed since
the character after it is a digit or comma. -/
def matchPercentAt (cs : List Char) : Option JsNum :=
  let (sgn, body) : List Char × List Char :=
    match cs with
    | '+' :: r => (['+'], r)
    | '-' :: r => (['-'], r)
    | _ => ([], cs)
  let run := body.takeWhile (fun c => jsIsDigit c ∨ c = ',')
  let r1 := body.dropWhile (fun c => jsIsDigit c ∨ c = ',')
  if run.isEmpty then none
  else
    let tailOk : List Char → Bool := fun rest =>
      match rest.dropWhile jsIsSpace with
      | '%' :: _ => true
      | _ => false
    let withDec : Option (List Char × List Char) :=
      match r1 with
      | '.' :: a :: b :: r =>
        if jsIsDigit a ∧ jsIsDigit b then some (run ++ ['.', a, b], r) else none
      | _ => none
    match withDec with
    | some (g, r) =>
      if tailOk r then some (parseFloatQ (sgn ++ g))
      else if tailOk r1 then some (parseFloatQ (sgn ++ run)) else none
    | none =>
      if tailOk r1 then some (parseFloatQ (sgn ++ run)) else none

/-- `/([\+\-]?\d+\.?\d*)%/` at one position (day-change percentages);
value via `parseFloat` of the capture. -/
def matchPctAt (cs : List Char) : Option ℚ :=
  let (sgnq, body) : ℚ × List Char :=
    match cs with
    | '+' :: r => (1, r)
    | '-' :: r => (-1, r)
    | _ => (1, cs)
  let (ds, r1) := takeDigits body
  if ds.isEmpty then none
  else
    match r1 with
    | '.' :: r =>
      let (fs, r') := takeDigits r
      match r' with
      | '%' :: _ => some (sgnq * decimalVal ds fs)
      | _ => none
    | '%' :: _ => some (sgnq * decimalVal ds [])
    | _ => none

/-- `[...text.matchAll(/₹([\d,]+(?:\.\d{2})?)/g)]` mapped through
`parseFloat(m[1].replace(/,/g, ''))`: every currency-like token in
document order.  Fuelled recursion; one unit of fuel is spent per input
character at most, so `cs.length` fuel always suffices. -/
def pricesAux : ℕ → List Char → List JsNum
  | 0, _ => []
  | _ + 1, [] => []
  | fuel + 1, c :: cs =>
    if c = '₹' then
      match numTok cs with
      | some (g, rest) => tokVal g :: pricesAux fuel rest
      | none => pricesAux fuel cs
    else pricesAux fuel cs

/-- All `₹`-amount tokens of the text, in document order. -/
def allPrices (cs : List Char) : List JsNum := pricesAux cs.length cs

/-! ## HoldingRecordBuilder — one fragment to one record

A candidate fragment is modelled by its `<td>` cell texts (empty when the
element is not a table row) and its flattened `textContent`.  The DOM
selector queries of the source are modelled for plain markup (no class
attributes on descendants, as in a bare `<tr><td>…` row or a flat text
card): of the name selectors only `td:first-child` can hit, i.e. the
first cell, and of the symbol selectors only `td:nth-child(2)`, i.e. the
second cell.

Modelled fields are the ones the claims speak about; the source's
additional duplicated/auxiliary fields (`quantity`, `averagePrice`,
`ltp`, `dayChange`, `pe`, `pb`, sector/exchange/marketCap/ISIN
extraction, timestamps) carry no independent logic and are omitted.
The three `obs…` fields are ghost instrumentation recording whether the
corresponding value was directly observed in the fragment (assigned from
a parsed cell or pattern match), rather than derived; they are set
exactly at the source lines that perform such assignments and alter no
computation. -/

structure Fragment where
  cells : List String
  text : String
  deriving DecidableEq, Repr

structure StockData where
  name : String
  symbol : String
  units : JsNum
  avgBuyPrice : JsNum
  currentPrice : JsNum
  investedValue : JsNum
  totalValue : JsNum
  profitLoss : JsNum
  profitLossPercentage : JsNum
  dayChangePercentage : JsNum
  obsInvested : Bool
  obsProfitLoss : Bool
  obsPLPercent : Bool
  deriving DecidableEq, Repr

/-- Name fallback from the flattened text: split on whitespace, keep
parts longer than 2 characters, take the first part that does not start
with a digit and is shorter than 50 characters. -/
def nameFromText (text : List Char) : String :=
  let parts := (splitWs text).filter (fun p => 2 < p.length)
  match parts.find? (fun p =>
      (match p with
       | c :: _ => ! jsIsDigit c
       | [] => false) && decide (2 < p.length) && decide (p.length < 50)) with
  | some p => ⟨p⟩
  | none => ""

/-- Stock name: first cell (`td:first-child`) when its trimmed text has
length in (2, 100), else the free-text fallback. -/
def extractName (f : Fragment) : String :=
  match f.cells.head? with
  | some c =>
    let t := trimChars c.data
    if 2 < t.length ∧ t.length < 100 then ⟨t⟩ else nameFromText f.text.data
  | none => nameFromText f.text.data

/-- Stock symbol: second cell (`td:nth-child(2)`) when its trimmed text
has length in [2, 20], else empty. -/
def extractSymbol (f : Fragment) : String :=
  match f.cells.get? 1 with
  | some c =>
    let t := trimChars c.data
    if 2 ≤ t.length ∧ t.length ≤ 20 then ⟨t⟩ else ""
  | none => ""

/-- The freshly initialised `stockData` object (all numeric fields `0`),
with name and symbol filled in by the selector logic above. -/
def initStock (f : Fragment) : StockData where
  name := extractName f
  symbol := extractSymbol f
  units := some 0
  avgBuyPrice := some 0
  currentPrice := some 0
  investedValue := some 0
  totalValue := some 0
  profitLoss := some 0
  profitLossPercentage := some 0
  dayChangePercentage := some 0
  obsInvested := false
  obsProfitLoss := false
  obsPLPercent := false

/-- Trimmed text of cell `i`, when present. -/
def cellAt (cells : List String) (i : ℕ) : Option (List Char) :=
  (cells.get? i).map (fun c => trimChars c.data)

/-- `.replace(/[,\s]/g, '')` (quantity cell). -/
def stripQty (t : List Char) : List Char :=
  stripChars [',', ' ', '\t', '\n', '\r'] t

/-- `.replace(/[₹,\s]/g, '')` (price/value cells). -/
def stripMoney (t : List Char) : List Char :=
  stripChars ['₹', ',', ' ', '\t', '\n', '\r'] t

/-- `.replace(/[₹,\s\+]/g, '')` (P&L cell). -/
def stripPL (t : List Char) : List Char :=
  stripChars ['₹', ',', ' ', '\t', '\n', '\r', '+'] t

/-- Cell 1 → `units` when it parses and is positive. -/
def tQty (cells : List String) (s : StockData) : StockData :=
  match cellAt cells 1 with
  | none => s
  | some t =>
    match parseFloatQ (stripQty t) with
    | some q => if 0 < q then { s with units := some q } else s
    | none => s

/-- Cell 2 → `avgBuyPrice` when it parses and is positive. -/
def tAvg (cells : List String) (s : StockData) : StockData :=
  match cellAt cells 2 with
  | none => s
  | some t =>
    match parseFloatQ (stripMoney t) with
    | some q => if 0 < q then { s with avgBuyPrice := some q } else s
    | none => s

/-- Cell 3 → `currentPrice` when it parses and is positive. -/
def tCur (cells : List String) (s : StockData) : StockData :=
  match cellAt cells 3 with
  | none => s
  | some t =>
    match parseFloatQ (stripMoney t) with
    | some q => if 0 < q then { s with currentPrice := some q } else s
    | none => s

/-- Cell 4 → `investedValue` when it parses and is positive
(a direct observation). -/
def tInv (cells : List String) (s : StockData) : StockData :=
  match cellAt cells 4 with
  | none => s
  | some t =>
    match parseFloatQ (stripMoney t) with
    | some q => if 0 < q then { s with investedValue := some q, obsInvested := true } else s
    | none => s

/-- Cell 5 → `totalValue` when it parses and is positive. -/
def tTot (cells : List String) (s : StockData) : StockData :=
  match cellAt cells 5 with
  | none => s
  | some t =>
    match parseFloatQ (stripMoney t) with
    | some q => if 0 < q then { s with totalValue := some q } else s
    | none => s

/-- Cell 7 → `profitLoss` whenever it parses (`!isNaN`, any sign;
a direct observation). -/
def tPL (cells : List String) (s : StockData) : StockData :=
  match cellAt cells 7 with
  | none => s
  | some t =>
    match parseFloatQ (stripPL t) with
    | some q => { s with profitLoss := some q, obsProfitLoss := true }
    | none => s

/-- `if (!investedValue && units > 0 && avgBuyPrice > 0)
      investedValue = units * avgBuyPrice`
(identical lines appear in the structured and the free-text strategy). -/
def derInvested (s : StockData) : StockData :=
  if ¬ jTruthy s.investedValue ∧ jGt s.units (some 0) ∧ jGt s.avgBuyPrice (some 0) then
    { s with investedValue := jMul s.units s.avgBuyPrice }
  else s

/-- `if (!profitLoss && totalValue > 0 && investedValue > 0)
      profitLoss = totalValue - investedValue`
(identical lines appear in the structured and the free-text strategy). -/
def derProfitLoss (s : StockData) : StockData :=
  if ¬ jTruthy s.profitLoss ∧ jGt s.totalValue (some 0) ∧ jGt s.investedValue (some 0) then
    { s with profitLoss := jSub s.totalValue s.investedValue }
  else s

/-- Structured-cell strategy (positional mapping over `<td>` cells),
run when the fragment has at least 7 cells. -/
def tablePhase (cells : List String) (s : StockData) : StockData :=
  derProfitLoss (derInvested (tPL cells (tTot cells (tInv cells (tCur cells (tAvg cells (tQty cells s)))))))

/-- `"N shares"` pattern → `units` (unconditional assignment). -/
def xShares (t : List Char) (s : StockData) : StockData :=
  match findFirst matchSharesAt t with
  | some q => { s with units := some q }
  | none => s

/-- `"Avg. ₹X"` pattern → `avgBuyPrice` (unconditional assignment). -/
def xAvg (t : List Char) (s : StockData) : StockData :=
  match findFirst matchAvgAt t with
  | some v => { s with avgBuyPrice := v }
  | none => s

/-- Second currency token → `currentPrice` when at least two exist. -/
def xCur (prices : List JsNum) (s : StockData) : StockData :=
  match prices with
  | _ :: p :: _ => { s with currentPrice := p }
  | _ => s

/-- Signed `"+₹X"`/`"-₹X"` pattern → `profitLoss` (a direct
observation). -/
def xPL (t : List Char) (s : StockData) : StockData :=
  match findFirst matchProfitAt t with
  | some v => { s with profitLoss := v, obsProfitLoss := true }
  | none => s

/-- First `"X%"` pattern → `profitLossPercentage` (a direct
observation). -/
def xPLP (t : List Char) (s : StockData) : StockData :=
  match findFirst matchPercentAt t with
  | some v => { s with profitLossPercentage := v, obsPLPercent := true }
  | none => s

/-- Last two currency tokens → `totalValue` (second to last) and
`investedValue` (last), when at least four exist (a direct observation
of `investedValue`). -/
def xTotInv (prices : List JsNum) (s : StockData) : StockData :=
  if 4 ≤ prices.length then
    { s with totalValue := prices.getD (prices.length - 2) none,
             investedValue := prices.getD (prices.length - 1) none,
             obsInvested := true }
  else s

/-- `if (!profitLossPercentage && profitLoss !== 0 && investedValue > 0)
      profitLossPercentage = (profitLoss / investedValue) * 100`. -/
def derPLPercent (s : StockData) : StockData :=
  if ¬ jTruthy s.profitLossPercentage ∧ s.profitLoss ≠ some 0 ∧ jGt s.investedValue (some 0) then
    { s with profitLossPercentage := jMul (jDiv s.profitLoss s.investedValue) (some 100) }
  else s

/-- Free-text fallback strategy, run when the structured strategy left
`units`, `totalValue` or `avgBuyPrice` unset. -/
def textPhase (t : List Char) (s : StockData) : StockData :=
  let prices := allPrices t
  derPLPercent (derProfitLoss (derInvested (xTotInv prices (xPLP t (xPL t (xCur prices (xAvg t (xShares t s))))))))

/-- Unconditional trailing override:
`if (totalValue > 0 && investedValue > 0)
   profitLossPercentage = ((totalValue - investedValue) / investedValue) * 100`. -/
def fPLP (s : StockData) : StockData :=
  if jGt s.totalValue (some 0) ∧ jGt s.investedValue (some 0) then
    { s with profitLossPercentage := jMul (jDiv (jSub s.totalValue s.investedValue) s.investedValue) (some 100) }
  else s

/-- First `%`-token of the text → `dayChangePercentage`. -/
def fDay (t : List Char) (s : StockData) : StockData :=
  match findFirst matchPctAt t with
  | some v => { s with dayChangePercentage := some v }
  | none => s

/-- Entry condition of the free-text fallback:
`!units || !totalValue || !avgBuyPrice`. -/
def fallbackNeeded (s : StockData) : Bool :=
  ¬ jTruthy s.units ∨ ¬ jTruthy s.totalValue ∨ ¬ jTruthy s.avgBuyPrice

/-- Whether the free-text fallback runs for this fragment. -/
def fallbackEntered (f : Fragment) : Bool :=
  let s0 := initStock f
  fallbackNeeded (if 7 ≤ f.cells.length then tablePhase f.cells s0 else s0)

/-- The full per-fragment record construction: structured-cell strategy
for rows with ≥ 7 cells, free-text fallback when fields remain unset,
then the unconditional percentage override and day-change extraction. -/
def buildRecord (f : Fragment) : StockData :=
  let s0 := initStock f
  let s1 := if 7 ≤ f.cells.length then tablePhase f.cells s0 else s0
  let s2 := if fallbackNeeded s1 then textPhase f.text.data s1 else s1
  fDay f.text.data (fPLP s2)

/-- Skip condition applied before any extraction: header vocabulary,
too-short or blank text. -/
def headerSkip (f : Fragment) : Bool :=
  let tl := lowerStr f.text.data
  containsSub "stock name".data tl ∨ containsSub "symbol".data tl ∨
  containsSub "quantity".data tl ∨ containsSub "holding".data tl ∨
  containsSub "portfolio".data tl ∨ f.text.length < 10 ∨
  (trimChars f.text.data).isEmpty

/-- Process one fragment: skip, build, validate
(`(hasValidName || symbol) && hasValidNumbers && isNotHeaderRow`);
`none` means no record enters the output sequence. -/
def processFragment (f : Fragment) : Option StockData :=
  if headerSkip f then none
  else
    let s := buildRecord f
    let hasValidName := 2 < s.name.length
    let hasValidNumbers := jGt s.totalValue (some 0) ∨ jGt s.currentPrice (some 0) ∨ jGt s.units (some 0)
    let isNotHeaderRow := ¬ containsSub "total".data (lowerStr f.text.data) ∨ jGt s.totalValue (some 0)
    if (hasValidName ∨ s.symbol ≠ "") ∧ hasValidNumbers ∧ isNotHeaderRow then some s
    else none

/-- The extraction step over all candidate fragments in page order
(`foundElements.forEach` + `data.holdings.push`). -/
def extractHoldings (fs : List Fragment) : List StockData :=
  fs.filterMap processFragment

/-! ## Concrete scenario fragments -/

/-- Scenario A: the structured 8-cell table row.  A plain `<tr>`'s
`textContent` is the concatenation of its cell texts. -/
def scenarioARow : Fragment where
  cells := ["Nuvama Wealth", "19", "5168.90", "6930.00", "98209.10",
            "131670.00", "77.00", "33460.90"]
  text := "Nuvama Wealth195168.906930.0098209.10131670.0077.0033460.90"

/-- Scenario B: the free-text fragment (no table cells). -/
def scenarioBFrag : Fragment where
  cells := []
  text := "Nuvama Wealth19 sharesAvg. ₹5,168.90₹6,930.0077.00 (1.12%)+₹33,460.9034.07%₹1,31,670.00₹98,209.10"

/-- An 8-cell table row whose P&L cell (50) differs from
current value − invested value (200 − 100 = 100). -/
def divergentPLRow : Fragment where
  cells := ["Acme Corp", "5", "20", "30", "100", "200", "1", "50"]
  text := "Acme Corp52030100200150"

/-!
C3 — structured-cell strategy on the scenario A row
-/

/-- "Nonnegative number or NaN" — the only values the unsigned parsers
can produce. -/
def NonnegOrNaN (x : JsNum) : Prop := x = none ∨ ∃ a : ℚ, 0 ≤ a ∧ x = some a


/-- Invariant carried through the scan steps of both strategies:
`units` is a nonnegative number, `avgBuyPrice` is `NaN` or a nonnegative
number, and as long as `investedValue` / `profitLoss` have not been
directly observed they still hold their initial `0`. -/
def Carry (s : StockData) : Prop :=
  (∃ u : ℚ, s.units = some u ∧ 0 ≤ u) ∧
  (s.avgBuyPrice = none ∨ ∃ a : ℚ, 0 ≤ a ∧ s.avgBuyPrice = some a) ∧
  (s.obsInvested = false → s.investedValue = some 0) ∧
  (s.obsProfitLoss = false → s.profitLoss = some 0)


/-- A free-text fragment on which neither `investedValue` nor
`profitLoss` is directly observed. -/
def c2WitnessFrag : Fragment where
  cells := []
  text := "Acme Corp7 sharesAvg. ₹10"


/-! ## ExtractionOrchestrator — `performAutomatedScraping`

The orchestrator drives the browser-automation capability, which the
spec treats as an external collaborator.  Each capability call's outcome
is supplied by an environment `Env`; the orchestrator state `RS` records
whether `this.browser` is set, how many times `browser.close()` has been
invoked, the percentages passed to `updateProgress` (in order — the
progress callback is modelled as this event list and is assumed not to
throw), and the navigation console-log entries (only the navigation
diagnostics are modelled; the emoji prefixes of the source's log strings
are dropped).  Thrown errors are modelled with `Except String`; for
capability failures whose message text the source merely propagates,
fixed placeholder strings stand in — the two error messages the source
itself constructs (login timeout, holdings navigation) are verbatim. -/

inductive NavOut where
  /-- `page.goto` threw (timeout or network error). -/
  | errNav
  /-- the page loaded but shows no holdings-bearing markup. -/
  | noHold
  /-- the page loaded and shows holdings-bearing markup. -/
  | hasHold
  deriving DecidableEq, Repr

structure Env where
  requireOk : Bool
  launchOk : Bool
  pageOk : Bool
  gotoLoginOk : Bool
  gotoHomeOk : Bool
  clickOk : Bool
  gotoLogin2Ok : Bool
  loginPoll : ℕ → Bool
  navOut : ℕ → NavOut
  scrollOk : Bool
  extractOk : Bool
  fragments : List Fragment
  closeOk : Bool

structure RS where
  browser : Bool
  closeCalls : ℕ
  events : List ℚ
  logs : List String
  deriving DecidableEq, Repr

def initRS : RS := ⟨false, 0, [], []⟩

/-- `updateProgress(p, …)`: deliver percentage `p` to the callback. -/
def emit (p : ℚ) (s : RS) : RS := { s with events := s.events ++ [p] }

/-- A `console.log` entry. -/
def logc (m : String) (s : RS) : RS := { s with logs := s.logs ++ [m] }

def timeoutMsg : String := "Login timeout - user did not log in within 10 minutes"

def navFailMsg : String := "Unable to navigate to holdings page"

/-- `initializeInteractiveBrowser`: emit 5, require puppeteer, launch
(acquiring the browser), create the page; on success emit 10; the catch
emits 0 and rethrows. -/
def initializeInteractiveBrowser (env : Env) (s : RS) : RS × Except String Unit :=
  if env.requireOk = false then
    (emit 0 (emit 5 s),
     .error "Puppeteer is not installed. Please install puppeteer dependencies first.")
  else if env.launchOk = false then
    (emit 0 (emit 5 s), .error "Failed to launch browser")
  else if env.pageOk = false then
    (emit 0 { emit 5 s with browser := true }, .error "Failed to create page")
  else (emit 10 { emit 5 s with browser := true }, .ok ())

/-- The login polling loop: up to 120 polls, 5 seconds apart.  On
detection emit 35 and succeed; after each undetected poll the attempt
counter is incremented and, every 12th attempt, a still-waiting update
`20 + (attempts / 120) * 10` is emitted; when 120 attempts are exhausted
the login-timeout error is thrown. -/
def loginLoop (poll : ℕ → Bool) : ℕ → ℕ → RS → RS × Except String Unit
  | _, 0, s => (s, .error timeoutMsg)
  | a, fuel + 1, s =>
    if poll a then (emit 35 s, .ok ())
    else if (a + 1) % 12 = 0 then
      loginLoop poll (a + 1) fuel (emit (20 + ((a + 1 : ℕ) : ℚ) / 120 * 10) s)
    else loginLoop poll (a + 1) fuel s

/-- `waitForUserLogin`: emit 15, navigate to the login page (primary
URL, then the home-page fallback with a login click or a manual second
attempt), emit 25, then poll; the catch emits 0 and rethrows. -/
def loginNavRes (env : Env) : Except String Unit :=
  if env.gotoLoginOk then .ok ()
  else if env.gotoHomeOk = false then .error "Navigation to Groww failed"
  else if env.clickOk then .ok ()
  else if env.gotoLogin2Ok then .ok ()
  else .error "Navigation to Groww failed"

def waitForUserLogin (env : Env) (s : RS) : RS × Except String Unit :=
  match loginNavRes env with
  | .error m => (emit 0 (emit 15 s), .error m)
  | .ok _ =>
    match loginLoop env.loginPoll 0 120 (emit 25 (emit 15 s)) with
    | (s', .ok _) => (s', .ok ())
    | (s', .error m) => (emit 0 s', .error m)

/-- The ordered candidate destination URLs. -/
def holdingsUrls : List String :=
  ["https://groww.in/stocks/user/holdings", "https://groww.in/holdings",
   "https://groww.in/portfolio", "https://groww.in/dashboard"]

/-- The `for (const url of holdingsUrls)` loop: log the attempt, load
the URL; on holdings-bearing markup emit 50, log success and stop; a
load error is logged and the next candidate is tried. -/
def navLoop (out : ℕ → NavOut) : List String → ℕ → RS → RS × Bool
  | [], _, s => (s, false)
  | u :: rest, i, s =>
    let s := logc ("Trying URL: " ++ u) s
    match out i with
    | .hasHold =>
      (logc ("Successfully navigated to holdings: " ++ u) (emit 50 s), true)
    | .noHold => navLoop out rest (i + 1) s
    | .errNav => navLoop out rest (i + 1) (logc ("Failed to navigate to " ++ u) s)

/-- `navigateToHoldings`: emit 40, try the candidates in order; on
exhaustion throw `Unable to navigate to holdings page` (the catch emits
0 and rethrows). -/
def navigateToHoldings (env : Env) (s : RS) : RS × Except String Unit :=
  match navLoop env.navOut holdingsUrls 0 (emit 40 s) with
  | (s', true) => (s', .ok ())
  | (s', false) => (emit 0 s', .error navFailMsg)

/-- `scrapeHoldings` at the session level: emit 60, run the scroll
evaluate and the extraction evaluate (the in-page extraction is
`extractHoldings` over the page's candidate fragments), emit 80; the
catch emits 0 and rethrows.  (The portfolio-summary and additional-info
extraction carry no logic the claims touch and are not modelled.) -/
def scrapeHoldingsStep (env : Env) (s : RS) : RS × Except String (List StockData) :=
  if env.scrollOk = false then (emit 0 (emit 60 s), .error "Page scroll failed")
  else if env.extractOk = false then (emit 0 (emit 60 s), .error "Extraction failed")
  else (emit 80 (emit 60 s), .ok (extractHoldings env.fragments))

/-- `close()`: emit 95; when a browser is held invoke `browser.close()`
(counted), on success clear the handle and emit 100 returning `true`; a
close failure is swallowed and `false` returned (no further emission). -/
def closeBrowser (env : Env) (s : RS) : RS × Bool :=
  if s.browser then
    if env.closeOk then
      (emit 100 { emit 95 s with browser := false, closeCalls := s.closeCalls + 1 }, true)
    else ({ emit 95 s with closeCalls := s.closeCalls + 1 }, false)
  else (emit 100 (emit 95 s), true)

inductive RunResult where
  /-- `{ success: true, data: …, message }` with the scraped holdings. -/
  | ok (holdings : List StockData) (message : String)
  /-- `{ success: false, data: [], message }` — no snapshot. -/
  | fail (message : String)
  deriving DecidableEq, Repr

/-- The catch block of `performAutomatedScraping`: close the browser if
one is held (a close failure is swallowed), emit 0, return the failure
result carrying the error's message. -/
def runCatch (m : String) (s : RS) : RS × RunResult :=
  (emit 0 (if s.browser then { s with closeCalls := s.closeCalls + 1 } else s), .fail m)

/-- Stage of `performAutomatedScraping` after a successful navigation:
scrape, close, return the success result. -/
def afterNav (env : Env) (s : RS) : RS × RunResult :=
  match scrapeHoldingsStep env s with
  | (s, .error m) => runCatch m s
  | (s, .ok hs) =>
    ((closeBrowser env s).1,
     .ok hs ("Successfully scraped " ++ toString hs.length ++
       " holdings with comprehensive data from Groww"))

/-- Stage of `performAutomatedScraping` after a successful login. -/
def afterLogin (env : Env) (s : RS) : RS × RunResult :=
  match navigateToHoldings env s with
  | (s, .error m) => runCatch m s
  | (s, .ok _) => afterNav env s

/-- Stage of `performAutomatedScraping` after a successful browser
initialization. -/
def afterInit (env : Env) (s : RS) : RS × RunResult :=
  match waitForUserLogin env s with
  | (s, .error m) => runCatch m s
  | (s, .ok _) => afterLogin env s

/-- `performAutomatedScraping`: emit 0, then initialize → wait for login
→ navigate → scrape → close, returning the success result; any thrown
error lands in the catch (staged here into `afterInit` → `afterLogin` →
`afterNav`, preserving the source's single
initialize/login/navigate/scrape/close/catch control flow). -/
def performAutomatedScraping (env : Env) : RS × RunResult :=
  match initializeInteractiveBrowser env (emit 0 initRS) with
  | (s, .error m) => runCatch m s
  | (s, .ok _) => afterInit env s

/-- Specification of the navigation loop's console trace: the candidates
are tried in order and the trace stops at the first success. -/
def navLogs (out : ℕ → NavOut) : List String → ℕ → List String
  | [], _ => []
  | u :: rest, i =>
    ("Trying URL: " ++ u) ::
      (match out i with
       | .hasHold => ["Successfully navigated to holdings: " ++ u]
       | .noHold => navLogs out rest (i + 1)
       | .errNav => ("Failed to navigate to " ++ u) :: navLogs out rest (i + 1))

/-- A session whose login completes only after the first
still-waiting update: everything else succeeds. -/
def lateLoginEnv : Env where
  requireOk := true
  launchOk := true
  pageOk := true
  gotoLoginOk := true
  gotoHomeOk := true
  clickOk := true
  gotoLogin2Ok := true
  loginPoll := fun k => decide (12 ≤ k)
  navOut := fun _ => .hasHold
  scrollOk := true
  extractOk := true
  fragments := []
  closeOk := true


/-- A session in which the user logs in immediately and everything
succeeds. -/
def fastLoginEnv : Env where
  requireOk := true
  launchOk := true
  pageOk := true
  gotoLoginOk := true
  gotoHomeOk := true
  clickOk := true
  gotoLogin2Ok := true
  loginPoll := fun _ => true
  navOut := fun _ => .hasHold
  scrollOk := true
  extractOk := true
  fragments := []
  closeOk := true

/-- A session in which `require('puppeteer')` fails. -/
def noPuppeteerEnv : Env where
  requireOk := false
  launchOk := true
  pageOk := true
  gotoLoginOk := true
  gotoHomeOk := true
  clickOk := true
  gotoLogin2Ok := true
  loginPoll := fun _ => true
  navOut := fun _ => .hasHold
  scrollOk := true
  extractOk := true
  fragments := []
  closeOk := true

/-- A session in which every candidate holdings URL fails to load. -/
def allNavFailEnv : Env where
  requireOk := true
  launchOk := true
  pageOk := true
  gotoLoginOk := true
  gotoHomeOk := true
  clickOk := true
  gotoLogin2Ok := true
  loginPoll := fun _ => true
  navOut := fun _ => .errNav
  scrollOk := true
  extractOk := true
  fragments := []
  closeOk := true


/-! ## ScrapingService — progress-callback registry and stock persistence

`progressCallbacks` is a Map keyed by session ID; only the key set
matters to the claims, so the registry is the list of registered session
IDs.  `syncGrowwAccountRealTime`'s collaborator outcomes (scraper
availability, account lookup, scrape success, data processing, account
status update) are supplied by `SyncEnv`; thrown errors are `Except`. -/

def setProgressCallback (sid : String) (reg : List String) : List String :=
  reg ++ [sid]

def removeProgressCallback (sid : String) (reg : List String) : List String :=
  reg.filter (fun x => !(x == sid))

structure SyncEnv where
  realScraperOk : Bool
  accountExists : Bool
  scrapeOk : Bool
  processOk : Bool
  updateOk : Bool

/-- `syncGrowwAccountRealTime`: the two guard validations (`realScraper`
set, account found) throw BEFORE the `try` block is entered; inside the
`try`, every path — the success return as well as the `catch` that wraps
and rethrows any error from scraping, processing, or the status update —
runs `removeProgressCallback(sessionId)` first. -/
def syncGrowwAccountRealTime (env : SyncEnv) (sid : String) (reg : List String) :
    List String × Except String Unit :=
  if env.realScraperOk = false then
    (reg, .error "Real scraper not available. Install Puppeteer: npm run install-scraping")
  else if env.accountExists = false then
    (reg, .error "Account not found")
  else if env.scrapeOk = false then
    (removeProgressCallback sid reg,
     .error "Real-time scraping failed: scraping result unsuccessful")
  else if env.processOk = false then
    (removeProgressCallback sid reg,
     .error "Real-time scraping failed: failed to process scraped holdings")
  else if env.updateOk = false then
    (removeProgressCallback sid reg,
     .error "Real-time scraping failed: failed to update account sync status")
  else (removeProgressCallback sid reg, .ok ())

/-- `Stock` as constructed by `processScrapedHoldings` from a scraped
holding (only the fields `Stock.validate` inspects): the constructor
coerces `quantity` and `purchasePrice` through `parseFloat(…) || 0`, and
`currentPrice` through `parseFloat(…) || purchasePrice || 0` (falling
back to the raw `avgBuyPrice`). -/
structure StockRec where
  accountId : String
  symbol : String
  name : String
  quantity : ℚ
  purchasePrice : ℚ
  currentPrice : ℚ
  deriving DecidableEq, Repr

def mkStock (accountId : String) (h : StockData) : StockRec where
  accountId := accountId
  symbol := h.symbol
  name := h.name
  quantity := h.units.getD 0
  purchasePrice := h.avgBuyPrice.getD 0
  currentPrice :=
    if jTruthy h.currentPrice then h.currentPrice.getD 0
    else if jTruthy h.avgBuyPrice then h.avgBuyPrice.getD 0
    else 0

/-- JS `String.prototype.trim`: strip leading and trailing
whitespace. -/
def jsTrim (s : String) : String :=
  ⟨((s.data.dropWhile Char.isWhitespace).reverse.dropWhile Char.isWhitespace).reverse⟩

/-- `Stock.validate().isValid`: no validation error is recorded, i.e.
the account ID is a non-empty string, symbol and name are non-empty
strings with non-empty trims, and quantity, purchase price and current
price are not negative. -/
def stockValidate (s : StockRec) : Bool :=
  (!(s.accountId == "")) &&
  ((!(s.symbol == "")) && (!(jsTrim s.symbol == ""))) &&
  ((!(s.name == "")) && (!(jsTrim s.name == ""))) &&
  (!(decide (s.quantity < 0))) &&
  (!(decide (s.purchasePrice < 0))) &&
  (!(decide (s.currentPrice < 0)))

/-- The `for (const holding of holdings)` loop of
`processScrapedHoldings`: build the Stock, validate, append to both the
saved list and the store when valid, otherwise log and skip (the loop
continues). -/
def processLoop (aid : String) :
    List StockData → List StockRec → List StockRec → List StockRec × List StockRec
  | [], saved, store => (saved, store)
  | h :: rest, saved, store =>
    if stockValidate (mkStock aid h) then
      processLoop aid rest (saved ++ [mkStock aid h]) (store ++ [mkStock aid h])
    else processLoop aid rest saved store

/-- `processScrapedHoldings`: drop the account's existing stocks from
the store, run the per-holding loop, return the saved stocks (the
updated store is written back to `stocks.json`). -/
def processScrapedHoldings (aid : String) (existing : List StockRec)
    (holdings : List StockData) : List StockRec × List StockRec :=
  processLoop aid holdings [] (existing.filter (fun st => !(st.accountId == aid)))

/-- A concrete scraped holding for the C10 witness. -/
def c10Holding : StockData :=
  ⟨"Acme Industrials", "ACME", some 2, some 10, some 12, none, none, none, none,
   none, false, false, false⟩


/-- C3: applying the structured-cell strategy to the 8-cell table row
`["Nuvama Wealth","19","5168.90","6930.00","98209.10","131670.00",
"77.00","33460.90"]` yields a record with `units = 19`,
`averageBuyPrice = 5168.90`, `currentPrice = 6930.00`,
`investedValue = 98209.10`, `currentValue = 131670.00`,
`profitLoss = 33460.90`; the record passes validation and enters the
output sequence. -/
theorem c3_structured_row :
    (buildRecord scenarioARow).units = some 19 ∧
    (buildRecord scenarioARow).avgBuyPrice = some (51689 / 10 : ℚ) ∧
    (buildRecord scenarioARow).currentPrice = some 6930 ∧
    (buildRecord scenarioARow).investedValue = some (982091 / 10 : ℚ) ∧
    (buildRecord scenarioARow).totalValue = some 131670 ∧
    (buildRecord scenarioARow).profitLoss = some (334609 / 10 : ℚ) ∧
    processFragment scenarioARow = some (buildRecord scenarioARow) := by
  decide

/-!
C4 — free-text fallback strategy on the scenario B fragment
-/

/-- C4: the free-text fallback on the scenario B fragment produces the
same derived values as scenario A: the `"N shares"` pattern gives
`units = 19`, the `"Avg. ₹X"` pattern gives `averageBuyPrice = 5168.90`,
the signed `"+₹X"` pattern gives `profitLoss = +33460.90`, and of the
five currency-like tokens in document order the second (6930.00) becomes
`currentPrice` while the last two (131670.00, 98209.10) become
`currentValue` and `investedValue` respectively. -/
theorem c4_freetext_fallback :
    findFirst matchSharesAt scenarioBFrag.text.data = some 19 ∧
    findFirst matchAvgAt scenarioBFrag.text.data = some (some (51689 / 10 : ℚ)) ∧
    findFirst matchProfitAt scenarioBFrag.text.data = some (some (334609 / 10 : ℚ)) ∧
    allPrices scenarioBFrag.text.data =
      [some (51689 / 10 : ℚ), some 6930, some (334609 / 10 : ℚ),
       some 131670, some (982091 / 10 : ℚ)] ∧
    (buildRecord scenarioBFrag).units = some 19 ∧
    (buildRecord scenarioBFrag).avgBuyPrice = some (51689 / 10 : ℚ) ∧
    (buildRecord scenarioBFrag).currentPrice = some 6930 ∧
    (buildRecord scenarioBFrag).investedValue = some (982091 / 10 : ℚ) ∧
    (buildRecord scenarioBFrag).totalValue = some 131670 ∧
    (buildRecord scenarioBFrag).profitLoss = some (334609 / 10 : ℚ) ∧
    processFragment scenarioBFrag = some (buildRecord scenarioBFrag) := by
  decide

/-!
C5 — rejection rule
-/

/-- C5: a fragment whose constructed record carries no identifying name
(as the code judges it: name of length ≤ 2) and no symbol, and whose
monetary fields are all non-positive, never yields a record in the
output sequence. -/
theorem c5_rejection (f : Fragment)
    (hname : ¬ 2 < (buildRecord f).name.length)
    (hsym : (buildRecord f).symbol = "")
    (htot : jGt (buildRecord f).totalValue (some 0) = false)
    (hcur : jGt (buildRecord f).currentPrice (some 0) = false)
    (hunits : jGt (buildRecord f).units (some 0) = false)
    (hinv : jGt (buildRecord f).investedValue (some 0) = false)
    (hpl : jGt (buildRecord f).profitLoss (some 0) = false) :
    processFragment f = none := by
  unfold processFragment
  split
  · rfl
  · rw [if_neg]
    intro ⟨h1, _, _⟩
    rcases h1 with h1 | h1
    · exact hname h1
    · exact h1 hsym

/-- Witness for C5 at the concrete fragment `⟨[], "123456 78901 23456"⟩`. -/
theorem c5_rejection_witness :
    processFragment { cells := [], text := "123456 78901 23456" } = none :=
  c5_rejection { cells := [], text := "123456 78901 23456" }
    (by decide) (by decide) (by decide) (by decide) (by decide) (by decide) (by decide)

/-!
C2 — counterexample to the derivation-consistency claim as stated
-/

/-- C2 counterexample: the record built from `divergentPLRow` enters the
output sequence, its `profitLossPercentage` was not directly observed
and its `investedValue` is positive, yet
`profitLossPercentage = 100 ≠ 50 = profitLoss / investedValue * 100`:
the trailing override computes the percentage from
`(currentValue − investedValue) / investedValue`, not from the observed
`profitLoss`. -/
theorem c2_derivation_counterexample :
    processFragment divergentPLRow = some (buildRecord divergentPLRow) ∧
    (buildRecord divergentPLRow).obsPLPercent = false ∧
    (buildRecord divergentPLRow).investedValue = some 100 ∧
    (buildRecord divergentPLRow).totalValue = some 200 ∧
    (buildRecord divergentPLRow).profitLoss = some 50 ∧
    jMul (jDiv (buildRecord divergentPLRow).profitLoss
      (buildRecord divergentPLRow).investedValue) (some 100) = some 50 ∧
    (buildRecord divergentPLRow).profitLossPercentage = some 100 ∧
    (buildRecord divergentPLRow).profitLossPercentage ≠
      jMul (jDiv (buildRecord divergentPLRow).profitLoss
        (buildRecord divergentPLRow).investedValue) (some 100) := by
  decide

/-!
C2 amended — supporting lemmas and proof
-/

lemma decimalVal_nonneg (ip fp : List Char) : 0 ≤ decimalVal ip fp := by
  unfold decimalVal; positivity

lemma parseFloatCore_nonneg {cs : List Char} {q : ℚ}
    (h : parseFloatCore cs = some q) : 0 ≤ q := by
  simp only [parseFloatCore] at h
  split at h
  · exact absurd h (by simp)
  · rw [Option.some_inj] at h
    exact h ▸ decimalVal_nonneg _ _

lemma mem_takeWhile {p : Char → Bool} {c : Char} {l : List Char}
    (h : c ∈ l.takeWhile p) : p c := by
  have := List.all_takeWhile (p := p) (l := l)
  exact (List.all_eq_true.mp this) c h

lemma parseFloatQ_nonneg {cs : List Char} (hm : '-' ∉ cs) {q : ℚ}
    (h : parseFloatQ cs = some q) : 0 ≤ q := by
  have hsub : cs.dropWhile jsIsSpace ⊆ cs := (List.dropWhile_sublist _).subset
  unfold parseFloatQ at h
  split at h
  · rename_i r heq
    exact absurd (hsub (heq ▸ List.mem_cons_self '-' r)) hm
  · exact parseFloatCore_nonneg h
  · exact parseFloatCore_nonneg h

lemma numTok_chars {cs g rest : List Char} (h : numTok cs = some (g, rest)) :
    ∀ c ∈ g, jsIsDigit c ∨ c = ',' ∨ c = '.' := by
  simp only [numTok] at h
  split at h
  · exact absurd h (by simp)
  · have hrun : ∀ c ∈ cs.takeWhile (fun c => jsIsDigit c ∨ c = ','),
        jsIsDigit c ∨ c = ',' ∨ c = '.' := by
      intro c hc
      have := mem_takeWhile hc
      simp only [decide_eq_true_eq] at this
      tauto
    split at h
    · rename_i a b r heq
      split at h
      · rename_i hab
        injection h with h1
        injection h1 with hg hr
        subst hg
        intro c hc
        rcases List.mem_append.mp hc with hc | hc
        · exact hrun c hc
        · simp only [List.mem_cons, List.not_mem_nil, or_false] at hc
          rcases hc with rfl | rfl | rfl
          · right; right; rfl
          · left; exact hab.1
          · left; exact hab.2
      · injection h with h1
        injection h1 with hg hr
        subst hg
        exact hrun
    · injection h with h1
      injection h1 with hg hr
      subst hg
      exact hrun

lemma numTok_no_minus {cs g rest : List Char} (h : numTok cs = some (g, rest)) :
    '-' ∉ g := by
  intro hmem
  rcases numTok_chars h '-' hmem with hd | hc | hc
  · simp [jsIsDigit] at hd
  · exact absurd hc (by decide)
  · exact absurd hc (by decide)

lemma findFirst_prop {α : Type} {P : α → Prop} {f : List Char → Option α}
    (hf : ∀ cs v, f cs = some v → P v) :
    ∀ cs v, findFirst f cs = some v → P v := by
  intro cs
  induction cs with
  | nil => exact fun v h => hf [] v h
  | cons c cs ih =>
    intro v h
    unfold findFirst at h
    split at h
    · rename_i w hw
      cases h
      exact hf _ _ hw
    · exact ih v h

lemma tokVal_nonnegOrNaN {cs g rest : List Char} (h : numTok cs = some (g, rest)) :
    NonnegOrNaN (tokVal g) := by
  unfold tokVal
  cases hp : parseFloatQ (g.filter (fun c => c ≠ ',')) with
  | none => exact Or.inl rfl
  | some q =>
    refine Or.inr ⟨q, ?_, rfl⟩
    refine parseFloatQ_nonneg ?_ hp
    intro hmem
    exact numTok_no_minus h (List.mem_of_mem_filter hmem)

lemma matchSharesAt_nonneg : ∀ cs (q : ℚ), matchSharesAt cs = some q → 0 ≤ q := by
  intro cs q h
  simp only [matchSharesAt] at h
  split at h
  · exact absurd h (by simp)
  · split at h
    · cases h
      split
      · split
        · exact decimalVal_nonneg _ _
        · exact decimalVal_nonneg _ _
      · exact decimalVal_nonneg _ _
    · exact absurd h (by simp)

lemma matchAvgAt_nonnegOrNaN : ∀ cs v, matchAvgAt cs = some v → NonnegOrNaN v := by
  intro cs v h
  simp only [matchAvgAt] at h
  split at h
  · exact absurd h (by simp)
  · split at h
    · split at h
      · rename_i g r hnt
        cases h
        exact tokVal_nonnegOrNaN hnt
      · exact absurd h (by simp)
    · exact absurd h (by simp)

lemma carry_init (f : Fragment) : Carry (initStock f) :=
  ⟨⟨0, rfl, le_refl 0⟩, Or.inr ⟨0, le_refl 0, rfl⟩, fun _ => rfl, fun _ => rfl⟩

lemma carry_tQty (cells : List String) (s : StockData) (h : Carry s) :
    Carry (tQty cells s) := by
  unfold tQty
  split
  · exact h
  · split
    · split
      · rename_i q _ hq
        obtain ⟨_, ha, hi, hp⟩ := h
        exact ⟨⟨q, rfl, hq.le⟩, ha, hi, hp⟩
      · exact h
    · exact h

lemma carry_tAvg (cells : List String) (s : StockData) (h : Carry s) :
    Carry (tAvg cells s) := by
  unfold tAvg
  split
  · exact h
  · split
    · split
      · rename_i q _ hq
        obtain ⟨hu, _, hi, hp⟩ := h
        exact ⟨hu, Or.inr ⟨q, hq.le, rfl⟩, hi, hp⟩
      · exact h
    · exact h

lemma carry_tCur (cells : List String) (s : StockData) (h : Carry s) :
    Carry (tCur cells s) := by
  unfold tCur
  split
  · exact h
  · split
    · split
      · exact h
      · exact h
    · exact h

lemma carry_tInv (cells : List String) (s : StockData) (h : Carry s) :
    Carry (tInv cells s) := by
  unfold tInv
  split
  · exact h
  · split
    · split
      · obtain ⟨hu, ha, _, hp⟩ := h
        exact ⟨hu, ha, fun hobs => absurd hobs (by simp), hp⟩
      · exact h
    · exact h

lemma carry_tTot (cells : List String) (s : StockData) (h : Carry s) :
    Carry (tTot cells s) := by
  unfold tTot
  split
  · exact h
  · split
    · split
      · exact h
      · exact h
    · exact h

lemma carry_tPL (cells : List String) (s : StockData) (h : Carry s) :
    Carry (tPL cells s) := by
  unfold tPL
  split
  · exact h
  · split
    · obtain ⟨hu, ha, hi, _⟩ := h
      exact ⟨hu, ha, hi, fun hobs => absurd hobs (by simp)⟩
    · exact h

lemma carry_xShares (t : List Char) (s : StockData) (h : Carry s) :
    Carry (xShares t s) := by
  unfold xShares
  split
  · rename_i q hq
    obtain ⟨_, ha, hi, hp⟩ := h
    exact ⟨⟨q, rfl, findFirst_prop matchSharesAt_nonneg t q hq⟩, ha, hi, hp⟩
  · exact h

lemma carry_xAvg (t : List Char) (s : StockData) (h : Carry s) :
    Carry (xAvg t s) := by
  unfold xAvg
  split
  · rename_i v hv
    obtain ⟨hu, _, hi, hp⟩ := h
    have hnn := findFirst_prop matchAvgAt_nonnegOrNaN t v hv
    rcases hnn with hvn | ⟨a, ha0, hva⟩
    · exact ⟨hu, Or.inl hvn, hi, hp⟩
    · exact ⟨hu, Or.inr ⟨a, ha0, hva⟩, hi, hp⟩
  · exact h

lemma carry_xCur (prices : List JsNum) (s : StockData) (h : Carry s) :
    Carry (xCur prices s) := by
  unfold xCur
  split
  · exact h
  · exact h

lemma carry_xPL (t : List Char) (s : StockData) (h : Carry s) :
    Carry (xPL t s) := by
  unfold xPL
  split
  · obtain ⟨hu, ha, hi, _⟩ := h
    exact ⟨hu, ha, hi, fun hobs => absurd hobs (by simp)⟩
  · exact h

lemma carry_xPLP (t : List Char) (s : StockData) (h : Carry s) :
    Carry (xPLP t s) := by
  unfold xPLP
  split
  · obtain ⟨hu, ha, hi, hp⟩ := h
    exact ⟨hu, ha, hi, hp⟩
  · exact h

lemma carry_xTotInv (prices : List JsNum) (s : StockData) (h : Carry s) :
    Carry (xTotInv prices s) := by
  unfold xTotInv
  split
  · obtain ⟨hu, ha, _, hp⟩ := h
    exact ⟨hu, ha, fun hobs => absurd hobs (by simp), hp⟩
  · exact h

/-- After the shared invested-value derivation, an unobserved
`investedValue` equals `units * avgBuyPrice` whenever `avgBuyPrice` is
an actual number. -/
lemma derInvested_spec (s : StockData) (h : Carry s) :
    (derInvested s).obsInvested = false → (derInvested s).avgBuyPrice ≠ none →
    (derInvested s).investedValue = jMul (derInvested s).units (derInvested s).avgBuyPrice := by
  obtain ⟨⟨u, hu, hu0⟩, havg, hIv, _⟩ := h
  unfold derInvested
  split
  · intro _ _
    rfl
  · rename_i hC
    intro hobs hnn
    have hiv : s.investedValue = some 0 := hIv hobs
    rcases havg with han | ⟨a, ha0, ha⟩
    · exact absurd han hnn
    · rw [hiv, hu, ha]
      simp only [jMul, Option.some_inj]
      rw [hiv, hu, ha] at hC
      simp only [jTruthy, jGt, ne_eq, not_and, not_lt, decide_eq_true_eq] at hC
      rcases lt_or_eq_of_le hu0 with hu1 | hu1
      · rcases lt_or_eq_of_le ha0 with ha1 | ha1
        · exfalso
          exact absurd ha1 (not_lt.mpr (hC (by simp) hu1))
        · rw [← ha1, mul_zero]
      · rw [← hu1, zero_mul]

/-- After the shared profit-loss derivation, an unobserved `profitLoss`
is `totalValue - investedValue` when both are positive, else `0`. -/
lemma derProfitLoss_spec (s : StockData)
    (hp : s.obsProfitLoss = false → s.profitLoss = some 0) :
    (derProfitLoss s).obsProfitLoss = false →
    (derProfitLoss s).profitLoss =
      (if jGt (derProfitLoss s).totalValue (some 0) ∧ jGt (derProfitLoss s).investedValue (some 0)
       then jSub (derProfitLoss s).totalValue (derProfitLoss s).investedValue
       else some 0) := by
  unfold derProfitLoss
  split
  · rename_i hC
    intro _
    rw [if_pos ⟨hC.2.1, hC.2.2⟩]
  · rename_i hC
    intro hobs
    have hpl : s.profitLoss = some 0 := hp hobs
    rw [hpl]
    rw [if_neg]
    intro ⟨h1, h2⟩
    apply hC
    refine ⟨?_, h1, h2⟩
    rw [hpl]
    simp [jTruthy]

/-! Projection (frame) lemmas: each derivation/override step changes
exactly one field. -/

@[simp] lemma derInvested_name (s : StockData) :
    (derInvested s).name = s.name := by
  unfold derInvested; split <;> rfl

@[simp] lemma derInvested_symbol (s : StockData) :
    (derInvested s).symbol = s.symbol := by
  unfold derInvested; split <;> rfl

@[simp] lemma derInvested_units (s : StockData) :
    (derInvested s).units = s.units := by
  unfold derInvested; split <;> rfl

@[simp] lemma derInvested_avgBuyPrice (s : StockData) :
    (derInvested s).avgBuyPrice = s.avgBuyPrice := by
  unfold derInvested; split <;> rfl

@[simp] lemma derInvested_currentPrice (s : StockData) :
    (derInvested s).currentPrice = s.currentPrice := by
  unfold derInvested; split <;> rfl

@[simp] lemma derInvested_totalValue (s : StockData) :
    (derInvested s).totalValue = s.totalValue := by
  unfold derInvested; split <;> rfl

@[simp] lemma derInvested_profitLoss (s : StockData) :
    (derInvested s).profitLoss = s.profitLoss := by
  unfold derInvested; split <;> rfl

@[simp] lemma derInvested_profitLossPercentage (s : StockData) :
    (derInvested s).profitLossPercentage = s.profitLossPercentage := by
  unfold derInvested; split <;> rfl

@[simp] lemma derInvested_dayChangePercentage (s : StockData) :
    (derInvested s).dayChangePercentage = s.dayChangePercentage := by
  unfold derInvested; split <;> rfl

@[simp] lemma derInvested_obsInvested (s : StockData) :
    (derInvested s).obsInvested = s.obsInvested := by
  unfold derInvested; split <;> rfl

@[simp] lemma derInvested_obsProfitLoss (s : StockData) :
    (derInvested s).obsProfitLoss = s.obsProfitLoss := by
  unfold derInvested; split <;> rfl

@[simp] lemma derInvested_obsPLPercent (s : StockData) :
    (derInvested s).obsPLPercent = s.obsPLPercent := by
  unfold derInvested; split <;> rfl

@[simp] lemma derProfitLoss_name (s : StockData) :
    (derProfitLoss s).name = s.name := by
  unfold derProfitLoss; split <;> rfl

@[simp] lemma derProfitLoss_symbol (s : StockData) :
    (derProfitLoss s).symbol = s.symbol := by
  unfold derProfitLoss; split <;> rfl

@[simp] lemma derProfitLoss_units (s : StockData) :
    (derProfitLoss s).units = s.units := by
  unfold derProfitLoss; split <;> rfl

@[simp] lemma derProfitLoss_avgBuyPrice (s : StockData) :
    (derProfitLoss s).avgBuyPrice = s.avgBuyPrice := by
  unfold derProfitLoss; split <;> rfl

@[simp] lemma derProfitLoss_currentPrice (s : StockData) :
    (derProfitLoss s).currentPrice = s.currentPrice := by
  unfold derProfitLoss; split <;> rfl

@[simp] lemma derProfitLoss_investedValue (s : StockData) :
    (derProfitLoss s).investedValue = s.investedValue := by
  unfold derProfitLoss; split <;> rfl

@[simp] lemma derProfitLoss_totalValue (s : StockData) :
    (derProfitLoss s).totalValue = s.totalValue := by
  unfold derProfitLoss; split <;> rfl

@[simp] lemma derProfitLoss_profitLossPercentage (s : StockData) :
    (derProfitLoss s).profitLossPercentage = s.profitLossPercentage := by
  unfold derProfitLoss; split <;> rfl

@[simp] lemma derProfitLoss_dayChangePercentage (s : StockData) :
    (derProfitLoss s).dayChangePercentage = s.dayChangePercentage := by
  unfold derProfitLoss; split <;> rfl

@[simp] lemma derProfitLoss_obsInvested (s : StockData) :
    (derProfitLoss s).obsInvested = s.obsInvested := by
  unfold derProfitLoss; split <;> rfl

@[simp] lemma derProfitLoss_obsProfitLoss (s : StockData) :
    (derProfitLoss s).obsProfitLoss = s.obsProfitLoss := by
  unfold derProfitLoss; split <;> rfl

@[simp] lemma derProfitLoss_obsPLPercent (s : StockData) :
    (derProfitLoss s).obsPLPercent = s.obsPLPercent := by
  unfold derProfitLoss; split <;> rfl

@[simp] lemma derPLPercent_name (s : StockData) :
    (derPLPercent s).name = s.name := by
  unfold derPLPercent; split <;> rfl

@[simp] lemma derPLPercent_symbol (s : StockData) :
    (derPLPercent s).symbol = s.symbol := by
  unfold derPLPercent; split <;> rfl

@[simp] lemma derPLPercent_units (s : StockData) :
    (derPLPercent s).units = s.units := by
  unfold derPLPercent; split <;> rfl

@[simp] lemma derPLPercent_avgBuyPrice (s : StockData) :
    (derPLPercent s).avgBuyPrice = s.avgBuyPrice := by
  unfold derPLPercent; split <;> rfl

@[simp] lemma derPLPercent_currentPrice (s : StockData) :
    (derPLPercent s).currentPrice = s.currentPrice := by
  unfold derPLPercent; split <;> rfl

@[simp] lemma derPLPercent_investedValue (s : StockData) :
    (derPLPercent s).investedValue = s.investedValue := by
  unfold derPLPercent; split <;> rfl

@[simp] lemma derPLPercent_totalValue (s : StockData) :
    (derPLPercent s).totalValue = s.totalValue := by
  unfold derPLPercent; split <;> rfl

@[simp] lemma derPLPercent_profitLoss (s : StockData) :
    (derPLPercent s).profitLoss = s.profitLoss := by
  unfold derPLPercent; split <;> rfl

@[simp] lemma derPLPercent_dayChangePercentage (s : StockData) :
    (derPLPercent s).dayChangePercentage = s.dayChangePercentage := by
  unfold derPLPercent; split <;> rfl

@[simp] lemma derPLPercent_obsInvested (s : StockData) :
    (derPLPercent s).obsInvested = s.obsInvested := by
  unfold derPLPercent; split <;> rfl

@[simp] lemma derPLPercent_obsProfitLoss (s : StockData) :
    (derPLPercent s).obsProfitLoss = s.obsProfitLoss := by
  unfold derPLPercent; split <;> rfl

@[simp] lemma derPLPercent_obsPLPercent (s : StockData) :
    (derPLPercent s).obsPLPercent = s.obsPLPercent := by
  unfold derPLPercent; split <;> rfl

@[simp] lemma fPLP_name (s : StockData) :
    (fPLP s).name = s.name := by
  unfold fPLP; split <;> rfl

@[simp] lemma fPLP_symbol (s : StockData) :
    (fPLP s).symbol = s.symbol := by
  unfold fPLP; split <;> rfl

@[simp] lemma fPLP_units (s : StockData) :
    (fPLP s).units = s.units := by
  unfold fPLP; split <;> rfl

@[simp] lemma fPLP_avgBuyPrice (s : StockData) :
    (fPLP s).avgBuyPrice = s.avgBuyPrice := by
  unfold fPLP; split <;> rfl

@[simp] lemma fPLP_currentPrice (s : StockData) :
    (fPLP s).currentPrice = s.currentPrice := by
  unfold fPLP; split <;> rfl

@[simp] lemma fPLP_investedValue (s : StockData) :
    (fPLP s).investedValue = s.investedValue := by
  unfold fPLP; split <;> rfl

@[simp] lemma fPLP_totalValue (s : StockData) :
    (fPLP s).totalValue = s.totalValue := by
  unfold fPLP; split <;> rfl

@[simp] lemma fPLP_profitLoss (s : StockData) :
    (fPLP s).profitLoss = s.profitLoss := by
  unfold fPLP; split <;> rfl

@[simp] lemma fPLP_dayChangePercentage (s : StockData) :
    (fPLP s).dayChangePercentage = s.dayChangePercentage := by
  unfold fPLP; split <;> rfl

@[simp] lemma fPLP_obsInvested (s : StockData) :
    (fPLP s).obsInvested = s.obsInvested := by
  unfold fPLP; split <;> rfl

@[simp] lemma fPLP_obsProfitLoss (s : StockData) :
    (fPLP s).obsProfitLoss = s.obsProfitLoss := by
  unfold fPLP; split <;> rfl

@[simp] lemma fPLP_obsPLPercent (s : StockData) :
    (fPLP s).obsPLPercent = s.obsPLPercent := by
  unfold fPLP; split <;> rfl

@[simp] lemma fDay_name (t : List Char) (s : StockData) :
    (fDay t s).name = s.name := by
  unfold fDay; split <;> rfl

@[simp] lemma fDay_symbol (t : List Char) (s : StockData) :
    (fDay t s).symbol = s.symbol := by
  unfold fDay; split <;> rfl

@[simp] lemma fDay_units (t : List Char) (s : StockData) :
    (fDay t s).units = s.units := by
  unfold fDay; split <;> rfl

@[simp] lemma fDay_avgBuyPrice (t : List Char) (s : StockData) :
    (fDay t s).avgBuyPrice = s.avgBuyPrice := by
  unfold fDay; split <;> rfl

@[simp] lemma fDay_currentPrice (t : List Char) (s : StockData) :
    (fDay t s).currentPrice = s.currentPrice := by
  unfold fDay; split <;> rfl

@[simp] lemma fDay_investedValue (t : List Char) (s : StockData) :
    (fDay t s).investedValue = s.investedValue := by
  unfold fDay; split <;> rfl

@[simp] lemma fDay_totalValue (t : List Char) (s : StockData) :
    (fDay t s).totalValue = s.totalValue := by
  unfold fDay; split <;> rfl

@[simp] lemma fDay_profitLoss (t : List Char) (s : StockData) :
    (fDay t s).profitLoss = s.profitLoss := by
  unfold fDay; split <;> rfl

@[simp] lemma fDay_profitLossPercentage (t : List Char) (s : StockData) :
    (fDay t s).profitLossPercentage = s.profitLossPercentage := by
  unfold fDay; split <;> rfl

@[simp] lemma fDay_obsInvested (t : List Char) (s : StockData) :
    (fDay t s).obsInvested = s.obsInvested := by
  unfold fDay; split <;> rfl

@[simp] lemma fDay_obsProfitLoss (t : List Char) (s : StockData) :
    (fDay t s).obsProfitLoss = s.obsProfitLoss := by
  unfold fDay; split <;> rfl

@[simp] lemma fDay_obsPLPercent (t : List Char) (s : StockData) :
    (fDay t s).obsPLPercent = s.obsPLPercent := by
  unfold fDay; split <;> rfl

/-- The trailing override indeed installs the
`(totalValue - investedValue) / investedValue * 100` percentage whenever
both values are positive. -/
lemma fPLP_spec (s : StockData)
    (h : jGt (fPLP s).totalValue (some 0) ∧ jGt (fPLP s).investedValue (some 0)) :
    (fPLP s).profitLossPercentage =
      jMul (jDiv (jSub (fPLP s).totalValue (fPLP s).investedValue) (fPLP s).investedValue)
        (some 100) := by
  rw [fPLP_totalValue, fPLP_investedValue] at h ⊢
  unfold fPLP
  split
  · rfl
  · rename_i hC
    exact absurd h hC

/-- C2, amended.  The code's derivations hold in the following form: for
a fragment handled by a single strategy (structured-cell with no
fallback, or free-text with fewer than 7 cells): an unobserved
`investedValue` ends up as `units * averageBuyPrice` (provided the
stored average is an actual number, not `NaN`), and an unobserved
`profitLoss` ends up as `currentValue - investedValue` when both are
positive and as `0` otherwise; and, for every fragment, whenever
`currentValue > 0` and `investedValue > 0` the final
`profitLossPercentage` is `(currentValue - investedValue) /
investedValue * 100` — regardless of whether `profitLoss` was directly
observed, which is what refutes the claim's original third conjunct. -/
theorem c2_derivation_amended (f : Fragment) :
    ((f.cells.length < 7 ∨ fallbackEntered f = false) →
      ((buildRecord f).obsInvested = false → (buildRecord f).avgBuyPrice ≠ none →
        (buildRecord f).investedValue =
          jMul (buildRecord f).units (buildRecord f).avgBuyPrice) ∧
      ((buildRecord f).obsProfitLoss = false →
        (buildRecord f).profitLoss =
          (if jGt (buildRecord f).totalValue (some 0) ∧
              jGt (buildRecord f).investedValue (some 0)
           then jSub (buildRecord f).totalValue (buildRecord f).investedValue
           else some 0))) ∧
    ((jGt (buildRecord f).totalValue (some 0) ∧
      jGt (buildRecord f).investedValue (some 0)) →
      (buildRecord f).profitLossPercentage =
        jMul (jDiv (jSub (buildRecord f).totalValue (buildRecord f).investedValue)
          (buildRecord f).investedValue) (some 100)) := by
  constructor
  · intro hone
    by_cases h7 : 7 ≤ f.cells.length
    · -- structured-only: the fallback did not run
      have hfb : fallbackNeeded (tablePhase f.cells (initStock f)) = false := by
        rcases hone with h | h
        · omega
        · simp only [fallbackEntered] at h
          rwa [if_pos h7] at h
      have hbr : buildRecord f =
          fDay f.text.data (fPLP (tablePhase f.cells (initStock f))) := by
        simp only [buildRecord]
        rw [if_pos h7, hfb]
        simp
      simp only [tablePhase] at hbr
      set s6 := tPL f.cells (tTot f.cells (tInv f.cells (tCur f.cells
        (tAvg f.cells (tQty f.cells (initStock f)))))) with hs6
      have hc : Carry s6 :=
        carry_tPL _ _ (carry_tTot _ _ (carry_tInv _ _ (carry_tCur _ _
          (carry_tAvg _ _ (carry_tQty _ _ (carry_init f))))))
      constructor
      · intro hobs hnn
        rw [hbr] at hobs hnn ⊢
        simp only [fDay_obsInvested, fPLP_obsInvested, derProfitLoss_obsInvested,
          fDay_avgBuyPrice, fPLP_avgBuyPrice, derProfitLoss_avgBuyPrice,
          fDay_investedValue, fPLP_investedValue, derProfitLoss_investedValue,
          fDay_units, fPLP_units, derProfitLoss_units] at hobs hnn ⊢
        exact derInvested_spec s6 hc hobs hnn
      · intro hobs
        rw [hbr] at hobs ⊢
        have hp : (derInvested s6).obsProfitLoss = false →
            (derInvested s6).profitLoss = some 0 := by
          simp only [derInvested_obsProfitLoss, derInvested_profitLoss]
          exact hc.2.2.2
        simp only [fDay_obsProfitLoss, fPLP_obsProfitLoss] at hobs
        have hspec := derProfitLoss_spec (derInvested s6) hp hobs
        simp only [fDay_profitLoss, fPLP_profitLoss, fDay_totalValue, fPLP_totalValue,
          fDay_investedValue, fPLP_investedValue]
        exact hspec
    · -- free-text only: fewer than 7 cells, the fallback always runs
      have hft : fallbackNeeded (initStock f) = true := rfl
      have hbr : buildRecord f =
          fDay f.text.data (fPLP (textPhase f.text.data (initStock f))) := by
        simp only [buildRecord]
        rw [if_neg h7, hft]
        simp
      simp only [textPhase] at hbr
      set s6 := xTotInv (allPrices f.text.data) (xPLP f.text.data (xPL f.text.data
        (xCur (allPrices f.text.data) (xAvg f.text.data
          (xShares f.text.data (initStock f)))))) with hs6
      have hc : Carry s6 :=
        carry_xTotInv _ _ (carry_xPLP _ _ (carry_xPL _ _ (carry_xCur _ _
          (carry_xAvg _ _ (carry_xShares _ _ (carry_init f))))))
      constructor
      · intro hobs hnn
        rw [hbr] at hobs hnn ⊢
        simp only [fDay_obsInvested, fPLP_obsInvested, derPLPercent_obsInvested,
          derProfitLoss_obsInvested, fDay_avgBuyPrice, fPLP_avgBuyPrice,
          derPLPercent_avgBuyPrice, derProfitLoss_avgBuyPrice,
          fDay_investedValue, fPLP_investedValue, derPLPercent_investedValue,
          derProfitLoss_investedValue, fDay_units, fPLP_units, derPLPercent_units,
          derProfitLoss_units] at hobs hnn ⊢
        exact derInvested_spec s6 hc hobs hnn
      · intro hobs
        rw [hbr] at hobs ⊢
        have hp : (derInvested s6).obsProfitLoss = false →
            (derInvested s6).profitLoss = some 0 := by
          simp only [derInvested_obsProfitLoss, derInvested_profitLoss]
          exact hc.2.2.2
        simp only [fDay_obsProfitLoss, fPLP_obsProfitLoss, derPLPercent_obsProfitLoss] at hobs
        have hspec := derProfitLoss_spec (derInvested s6) hp hobs
        simp only [fDay_profitLoss, fPLP_profitLoss, derPLPercent_profitLoss,
          fDay_totalValue, fPLP_totalValue, derPLPercent_totalValue,
          fDay_investedValue, fPLP_investedValue, derPLPercent_investedValue]
        exact hspec
  · intro h
    simp only [buildRecord] at h ⊢
    simp only [fDay_totalValue, fDay_investedValue, fDay_profitLossPercentage] at h ⊢
    exact fPLP_spec _ h

/-- Witness for the amended C2: the single-strategy derivations applied
at `c2WitnessFrag` (units 7, average 10, nothing else observed) and the
percentage override applied at the scenario A row, every hypothesis
discharged by evaluation. -/
theorem c2_derivation_amended_witness :
    ((buildRecord c2WitnessFrag).investedValue =
      jMul (buildRecord c2WitnessFrag).units (buildRecord c2WitnessFrag).avgBuyPrice) ∧
    ((buildRecord c2WitnessFrag).profitLoss =
      (if jGt (buildRecord c2WitnessFrag).totalValue (some 0) ∧
          jGt (buildRecord c2WitnessFrag).investedValue (some 0)
       then jSub (buildRecord c2WitnessFrag).totalValue
         (buildRecord c2WitnessFrag).investedValue
       else some 0)) ∧
    ((buildRecord scenarioARow).profitLossPercentage =
      jMul (jDiv (jSub (buildRecord scenarioARow).totalValue
        (buildRecord scenarioARow).investedValue)
        (buildRecord scenarioARow).investedValue) (some 100)) :=
  ⟨((c2_derivation_amended c2WitnessFrag).1 (Or.inl (by decide))).1
      (by decide) (by decide),
   ((c2_derivation_amended c2WitnessFrag).1 (Or.inl (by decide))).2 (by decide),
   (c2_derivation_amended scenarioARow).2 (by decide)⟩

lemma loginLoop_pres (poll : ℕ → Bool) :
    ∀ fuel a s, (loginLoop poll a fuel s).1.browser = s.browser ∧
      (loginLoop poll a fuel s).1.closeCalls = s.closeCalls ∧
      (loginLoop poll a fuel s).1.logs = s.logs := by
  intro fuel
  induction fuel with
  | zero => exact fun a s => ⟨rfl, rfl, rfl⟩
  | succ n ih =>
    intro a s
    unfold loginLoop
    split
    · exact ⟨rfl, rfl, rfl⟩
    · split
      · exact ih (a + 1) _
      · exact ih (a + 1) s

lemma loginLoop_events_le (poll : ℕ → Bool) :
    ∀ fuel a s, a + fuel ≤ 120 → (∀ x ∈ s.events, x ≤ (80 : ℚ)) →
      ∀ x ∈ (loginLoop poll a fuel s).1.events, x ≤ (80 : ℚ) := by
  intro fuel
  induction fuel with
  | zero => exact fun a s _ hs => hs
  | succ n ih =>
    intro a s hle hs
    unfold loginLoop
    split
    · intro x hx
      rcases List.mem_append.mp hx with hx | hx
      · exact hs x hx
      · simp only [List.mem_singleton] at hx
        subst hx
        norm_num
    · split
      · refine ih (a + 1) _ (by omega) ?_
        intro x hx
        rcases List.mem_append.mp hx with hx | hx
        · exact hs x hx
        · simp only [List.mem_singleton] at hx
          subst hx
          have ha : ((a + 1 : ℕ) : ℚ) ≤ 120 := by
            exact_mod_cast (by omega : a + 1 ≤ 120)
          have h2 : ((a + 1 : ℕ) : ℚ) / 120 * 10 ≤ 10 := by
            rw [div_mul_eq_mul_div, div_le_iff (by norm_num : (0 : ℚ) < 120)]
            nlinarith
          linarith
      · exact ih (a + 1) s (by omega) hs

lemma loginLoop_timeout (poll : ℕ → Bool) :
    ∀ fuel a s, (∀ k, a ≤ k → k < a + fuel → poll k = false) →
      (loginLoop poll a fuel s).2 = .error timeoutMsg := by
  intro fuel
  induction fuel with
  | zero => exact fun a s _ => rfl
  | succ n ih =>
    intro a s hp
    unfold loginLoop
    rw [hp a (Nat.le_refl a) (by omega)]
    simp only [Bool.false_eq_true, if_false]
    split
    · exact ih (a + 1) _ (fun k h1 h2 => hp k (by omega) (by omega))
    · exact ih (a + 1) s (fun k h1 h2 => hp k (by omega) (by omega))

lemma navLoop_spec (out : ℕ → NavOut) :
    ∀ urls i s, (navLoop out urls i s).1.browser = s.browser ∧
      (navLoop out urls i s).1.closeCalls = s.closeCalls ∧
      (navLoop out urls i s).1.events =
        s.events ++ (if (navLoop out urls i s).2 then [(50 : ℚ)] else []) ∧
      (navLoop out urls i s).1.logs = s.logs ++ navLogs out urls i := by
  intro urls
  induction urls with
  | nil => intro i s; simp [navLoop, navLogs]
  | cons u rest ih =>
    intro i s
    cases hout : out i with
    | hasHold =>
      simp only [navLoop, navLogs, hout]
      simp [emit, logc]
    | noHold =>
      obtain ⟨hb, hc, he, hl⟩ := ih (i + 1) (logc ("Trying URL: " ++ u) s)
      simp only [navLoop, navLogs, hout]
      refine ⟨hb, hc, ?_, ?_⟩
      · rw [he]; simp [logc]
      · rw [hl]; simp [logc]
    | errNav =>
      obtain ⟨hb, hc, he, hl⟩ :=
        ih (i + 1) (logc ("Failed to navigate to " ++ u) (logc ("Trying URL: " ++ u) s))
      simp only [navLoop, navLogs, hout]
      refine ⟨hb, hc, ?_, ?_⟩
      · rw [he]; simp [logc]
      · rw [hl]; simp [logc]

lemma navLoop_true_of (out : ℕ → NavOut) :
    ∀ urls i s, (∃ k, k < urls.length ∧ out (i + k) = .hasHold) →
      (navLoop out urls i s).2 = true := by
  intro urls
  induction urls with
  | nil =>
    intro i s ⟨k, hk, _⟩
    simp at hk
  | cons u rest ih =>
    intro i s ⟨k, hk, hko⟩
    cases hout : out i with
    | hasHold => simp only [navLoop, hout]
    | noHold =>
      simp only [navLoop, hout]
      refine ih (i + 1) _ ⟨k - 1, ?_, ?_⟩
      · rcases Nat.eq_zero_or_pos k with rfl | hpos
        · rw [Nat.add_zero] at hko
          rw [hko] at hout
          exact absurd hout (by simp)
        · simp only [List.length_cons] at hk; omega
      · rcases Nat.eq_zero_or_pos k with rfl | hpos
        · rw [Nat.add_zero] at hko
          rw [hko] at hout
          exact absurd hout (by simp)
        · rw [show i + 1 + (k - 1) = i + k by omega]; exact hko
    | errNav =>
      simp only [navLoop, hout]
      refine ih (i + 1) _ ⟨k - 1, ?_, ?_⟩
      · rcases Nat.eq_zero_or_pos k with rfl | hpos
        · rw [Nat.add_zero] at hko
          rw [hko] at hout
          exact absurd hout (by simp)
        · simp only [List.length_cons] at hk; omega
      · rcases Nat.eq_zero_or_pos k with rfl | hpos
        · rw [Nat.add_zero] at hko
          rw [hko] at hout
          exact absurd hout (by simp)
        · rw [show i + 1 + (k - 1) = i + k by omega]; exact hko

lemma navLoop_false_of (out : ℕ → NavOut) :
    ∀ urls i s, (∀ k, k < urls.length → out (i + k) ≠ .hasHold) →
      (navLoop out urls i s).2 = false := by
  intro urls
  induction urls with
  | nil => intro i s _; rfl
  | cons u rest ih =>
    intro i s h
    cases hout : out i with
    | hasHold =>
      have h0 := h 0 (by simp)
      rw [Nat.add_zero] at h0
      exact absurd hout h0
    | noHold =>
      simp only [navLoop, hout]
      exact ih (i + 1) _ (fun k hk => by
        rw [show i + 1 + k = i + (k + 1) by omega]
        exact h (k + 1) (by simp only [List.length_cons]; omega))
    | errNav =>
      simp only [navLoop, hout]
      exact ih (i + 1) _ (fun k hk => by
        rw [show i + 1 + k = i + (k + 1) by omega]
        exact h (k + 1) (by simp only [List.length_cons]; omega))

lemma navLogs_tries (out : ℕ → NavOut) :
    ∀ urls i, (∀ k, k < urls.length → out (i + k) ≠ .hasHold) →
      ∀ u ∈ urls, ("Trying URL: " ++ u) ∈ navLogs out urls i := by
  intro urls
  induction urls with
  | nil => intro i _ u hu; simp at hu
  | cons u' rest ih =>
    intro i h u hu
    rcases List.mem_cons.mp hu with rfl | hu
    · simp only [navLogs]
      exact List.mem_cons_self _ _
    · have hrec := ih (i + 1) (fun k hk => by
        rw [show i + 1 + k = i + (k + 1) by omega]
        exact h (k + 1) (by simp only [List.length_cons]; omega)) u hu
      cases hout : out i with
      | hasHold =>
        have h0 := h 0 (by simp)
        rw [Nat.add_zero] at h0
        exact absurd hout h0
      | noHold =>
        simp only [navLogs, hout]
        exact List.mem_cons_of_mem _ hrec
      | errNav =>
        simp only [navLogs, hout]
        exact List.mem_cons_of_mem _ (List.mem_cons_of_mem _ hrec)

lemma startsWith_self : ∀ l : List Char, startsWith l l = true := by
  intro l
  induction l with
  | nil => rfl
  | cons c cs ih =>
    have : startsWith (c :: cs) (c :: cs) = ((c = c) && startsWith cs cs) := rfl
    rw [this, ih]
    simp

lemma containsSub_append_self : ∀ pre pat : List Char,
    containsSub pat (pre ++ pat) = true := by
  intro pre
  induction pre with
  | nil =>
    intro pat
    cases pat with
    | nil => rfl
    | cons c cs => simp [containsSub, startsWith_self]
  | cons p pre2 ih =>
    intro pat
    have hc : containsSub pat ((p :: pre2) ++ pat) =
        (startsWith pat ((p :: pre2) ++ pat) || containsSub pat (pre2 ++ pat)) := rfl
    rw [hc, ih pat, Bool.or_true]

lemma emit_events (p : ℚ) (s : RS) : (emit p s).events = s.events ++ [p] := rfl

lemma forall_le_app {l m : List ℚ} (hl : ∀ x ∈ l, x ≤ (80 : ℚ))
    (hm : ∀ x ∈ m, x ≤ (80 : ℚ)) : ∀ x ∈ l ++ m, x ≤ (80 : ℚ) := by
  intro x hx
  rcases List.mem_append.mp hx with h | h
  · exact hl x h
  · exact hm x h

lemma forall_le_single {p : ℚ} (hp : p ≤ 80) : ∀ x ∈ [p], x ≤ (80 : ℚ) := by
  intro x hx
  simp only [List.mem_singleton] at hx
  subst hx
  exact hp

lemma getLast?_app {α : Type} (l : List α) (a : α) : (l ++ [a]).getLast? = some a :=
  List.getLast?_concat l

lemma wl_pres (env : Env) (s : RS) :
    (waitForUserLogin env s).1.browser = s.browser ∧
    (waitForUserLogin env s).1.closeCalls = s.closeCalls := by
  unfold waitForUserLogin
  split
  · exact ⟨rfl, rfl⟩
  · split
    · rename_i heq
      have hp := loginLoop_pres env.loginPoll 120 0 (emit 25 (emit 15 s))
      rw [heq] at hp
      exact ⟨hp.1, hp.2.1⟩
    · rename_i heq
      have hp := loginLoop_pres env.loginPoll 120 0 (emit 25 (emit 15 s))
      rw [heq] at hp
      exact ⟨hp.1, hp.2.1⟩

lemma nav_pres (env : Env) (s : RS) :
    (navigateToHoldings env s).1.browser = s.browser ∧
    (navigateToHoldings env s).1.closeCalls = s.closeCalls := by
  unfold navigateToHoldings
  split
  · rename_i heq
    have hp := navLoop_spec env.navOut holdingsUrls 0 (emit 40 s)
    rw [heq] at hp
    exact ⟨hp.1, hp.2.1⟩
  · rename_i heq
    have hp := navLoop_spec env.navOut holdingsUrls 0 (emit 40 s)
    rw [heq] at hp
    exact ⟨hp.1, hp.2.1⟩

lemma scrape_pres (env : Env) (s : RS) :
    (scrapeHoldingsStep env s).1.browser = s.browser ∧
    (scrapeHoldingsStep env s).1.closeCalls = s.closeCalls := by
  unfold scrapeHoldingsStep
  split
  · exact ⟨rfl, rfl⟩
  · split
    · exact ⟨rfl, rfl⟩
    · exact ⟨rfl, rfl⟩

lemma init_events_le (env : Env) (s : RS) (h : ∀ x ∈ s.events, x ≤ (80 : ℚ)) :
    ∀ x ∈ (initializeInteractiveBrowser env s).1.events, x ≤ (80 : ℚ) := by
  unfold initializeInteractiveBrowser
  split
  · exact forall_le_app (forall_le_app h (forall_le_single (by norm_num)))
      (forall_le_single (by norm_num))
  · split
    · exact forall_le_app (forall_le_app h (forall_le_single (by norm_num)))
        (forall_le_single (by norm_num))
    · split
      · exact forall_le_app (forall_le_app h (forall_le_single (by norm_num)))
          (forall_le_single (by norm_num))
      · exact forall_le_app (forall_le_app h (forall_le_single (by norm_num)))
          (forall_le_single (by norm_num))

lemma wl_events_le (env : Env) (s : RS) (h : ∀ x ∈ s.events, x ≤ (80 : ℚ)) :
    ∀ x ∈ (waitForUserLogin env s).1.events, x ≤ (80 : ℚ) := by
  have hbase : ∀ x ∈ (emit 25 (emit 15 s)).events, x ≤ (80 : ℚ) :=
    forall_le_app (forall_le_app h (forall_le_single (by norm_num)))
      (forall_le_single (by norm_num))
  have hloop := loginLoop_events_le env.loginPoll 120 0 (emit 25 (emit 15 s))
    (by omega) hbase
  unfold waitForUserLogin
  split
  · exact forall_le_app (forall_le_app h (forall_le_single (by norm_num)))
      (forall_le_single (by norm_num))
  · split
    · rename_i heq
      rw [heq] at hloop
      exact hloop
    · rename_i heq
      rw [heq] at hloop
      exact forall_le_app hloop (forall_le_single (by norm_num))

lemma nav_events_le (env : Env) (s : RS) (h : ∀ x ∈ s.events, x ≤ (80 : ℚ)) :
    ∀ x ∈ (navigateToHoldings env s).1.events, x ≤ (80 : ℚ) := by
  have hspec := navLoop_spec env.navOut holdingsUrls 0 (emit 40 s)
  have hbase : ∀ x ∈ (emit 40 s).events, x ≤ (80 : ℚ) :=
    forall_le_app h (forall_le_single (by norm_num))
  have hloop : ∀ x ∈ (navLoop env.navOut holdingsUrls 0 (emit 40 s)).1.events,
      x ≤ (80 : ℚ) := by
    rw [hspec.2.2.1]
    refine forall_le_app hbase ?_
    split
    · exact forall_le_single (by norm_num)
    · intro x hx
      simp at hx
  unfold navigateToHoldings
  split
  · rename_i heq
    rw [heq] at hloop
    exact hloop
  · rename_i heq
    rw [heq] at hloop
    exact forall_le_app hloop (forall_le_single (by norm_num))

lemma scrape_events_le (env : Env) (s : RS) (h : ∀ x ∈ s.events, x ≤ (80 : ℚ)) :
    ∀ x ∈ (scrapeHoldingsStep env s).1.events, x ≤ (80 : ℚ) := by
  unfold scrapeHoldingsStep
  split
  · exact forall_le_app (forall_le_app h (forall_le_single (by norm_num)))
      (forall_le_single (by norm_num))
  · split
    · exact forall_le_app (forall_le_app h (forall_le_single (by norm_num)))
        (forall_le_single (by norm_num))
    · exact forall_le_app (forall_le_app h (forall_le_single (by norm_num)))
        (forall_le_single (by norm_num))

lemma runCatch_spec (m : String) (s : RS) (h : ∀ x ∈ s.events, x ≤ (80 : ℚ)) :
    (runCatch m s).1.events.getLast? = some 0 ∧
    (100 : ℚ) ∉ (runCatch m s).1.events ∧
    (runCatch m s).2 = .fail m ∧
    (runCatch m s).1.closeCalls = (if s.browser then s.closeCalls + 1 else s.closeCalls) := by
  unfold runCatch
  refine ⟨?_, ?_, rfl, ?_⟩
  · split <;> exact getLast?_app _ _
  · intro hmem
    have : (100 : ℚ) ≤ 80 := by
      revert hmem
      split <;>
        (intro hmem
         rcases List.mem_append.mp hmem with hx | hx
         · exact h _ hx
         · simp at hx)
    norm_num at this
  · split <;> rfl

lemma init_ok_spec (env : Env) (s : RS) (h1 : env.requireOk = true)
    (h2 : env.launchOk = true) (h3 : env.pageOk = true) :
    initializeInteractiveBrowser env s =
      (emit 10 { emit 5 s with browser := true }, .ok ()) := by
  unfold initializeInteractiveBrowser
  rw [h1, h2, h3]
  simp

lemma init_nopage_spec (env : Env) (s : RS) (h1 : env.requireOk = true)
    (h2 : env.launchOk = true) (h3 : env.pageOk = false) :
    initializeInteractiveBrowser env s =
      (emit 0 { emit 5 s with browser := true }, .error "Failed to create page") := by
  unfold initializeInteractiveBrowser
  rw [h1, h2, h3]
  simp

lemma afterNav_closeCalls (env : Env) (s : RS) (hb : s.browser = true)
    (hc : s.closeCalls = 0) : (afterNav env s).1.closeCalls = 1 := by
  unfold afterNav
  rcases hS : scrapeHoldingsStep env s with ⟨s4, r4⟩
  have hSp := scrape_pres env s
  rw [hS] at hSp
  have hb4 : s4.browser = true := by rw [hSp.1]; exact hb
  have hc4 : s4.closeCalls = 0 := by rw [hSp.2]; exact hc
  cases r4 with
  | error m => simp [runCatch, emit, hb4, hc4]
  | ok hs =>
    show (closeBrowser env s4).1.closeCalls = 1
    unfold closeBrowser
    simp only [hb4, if_true]
    split <;> simp [emit, hc4]

lemma afterLogin_closeCalls (env : Env) (s : RS) (hb : s.browser = true)
    (hc : s.closeCalls = 0) : (afterLogin env s).1.closeCalls = 1 := by
  unfold afterLogin
  rcases hN : navigateToHoldings env s with ⟨s3, r3⟩
  have hNp := nav_pres env s
  rw [hN] at hNp
  have hb3 : s3.browser = true := by rw [hNp.1]; exact hb
  have hc3 : s3.closeCalls = 0 := by rw [hNp.2]; exact hc
  cases r3 with
  | error m => simp [runCatch, emit, hb3, hc3]
  | ok _ => exact afterNav_closeCalls env s3 hb3 hc3

lemma afterInit_closeCalls (env : Env) (s : RS) (hb : s.browser = true)
    (hc : s.closeCalls = 0) : (afterInit env s).1.closeCalls = 1 := by
  unfold afterInit
  rcases hW : waitForUserLogin env s with ⟨s2, r2⟩
  have hWp := wl_pres env s
  rw [hW] at hWp
  have hb2 : s2.browser = true := by rw [hWp.1]; exact hb
  have hc2 : s2.closeCalls = 0 := by rw [hWp.2]; exact hc
  cases r2 with
  | error m => simp [runCatch, emit, hb2, hc2]
  | ok _ => exact afterLogin_closeCalls env s2 hb2 hc2

lemma closeCalls_one (env : Env)
    (h1 : env.requireOk = true) (h2 : env.launchOk = true) :
    (performAutomatedScraping env).1.closeCalls = 1 := by
  unfold performAutomatedScraping
  by_cases h3 : env.pageOk = true
  · rw [init_ok_spec env _ h1 h2 h3]
    exact afterInit_closeCalls env _ rfl rfl
  · have h3f : env.pageOk = false := by
      cases henv : env.pageOk
      · rfl
      · exact absurd henv h3
    rw [init_nopage_spec env _ h1 h2 h3f]
    rfl

/--
C1: on every exit of a session in which the browser was acquired
(`require('puppeteer')` and `puppeteer.launch` succeeded) — success,
page-creation failure, login navigation failure, login timeout,
navigation exhaustion, extraction failure, even a failing `close` —
`browser.close()` is invoked exactly once before the session's result is
returned.
-/
theorem c1_close_exactly_once (env : Env)
    (h1 : env.requireOk = true) (h2 : env.launchOk = true) :
    (performAutomatedScraping env).1.closeCalls = 1 :=
  closeCalls_one env h1 h2

/-- Witness for C1 at an environment in which the browser is acquired
and the extraction then fails. -/
theorem c1_close_exactly_once_witness :
    (performAutomatedScraping
      { requireOk := true, launchOk := true, pageOk := true, gotoLoginOk := true,
        gotoHomeOk := true, clickOk := true, gotoLogin2Ok := true,
        loginPoll := fun _ => true, navOut := fun _ => .hasHold, scrollOk := true,
        extractOk := false, fragments := [], closeOk := true }).1.closeCalls = 1 :=
  c1_close_exactly_once _ rfl rfl

lemma loginNavRes_ok (env : Env) (h4 : env.gotoLoginOk = true) :
    loginNavRes env = .ok () := by
  unfold loginNavRes
  rw [h4]
  simp

lemma wl_timeout_spec (env : Env) (s : RS) (h4 : env.gotoLoginOk = true)
    (hp : ∀ k, k < 120 → env.loginPoll k = false) :
    (waitForUserLogin env s).2 = .error timeoutMsg := by
  unfold waitForUserLogin
  rw [loginNavRes_ok env h4]
  have hto := loginLoop_timeout env.loginPoll 120 0 (emit 25 (emit 15 s))
    (fun k _ hk2 => hp k (by omega))
  rcases hL : loginLoop env.loginPoll 0 120 (emit 25 (emit 15 s)) with ⟨s2, r2⟩
  rw [hL] at hto
  cases r2 with
  | error m =>
    simp only at hto
    injection hto with hm
    rw [hm]
  | ok _ => exact absurd hto (by simp)

lemma afterInit_fail_of_wl (env : Env) (s : RS) (m : String)
    (hw : (waitForUserLogin env s).2 = .error m) :
    (afterInit env s).2 = .fail m := by
  unfold afterInit
  rcases hW : waitForUserLogin env s with ⟨s2, r2⟩
  rw [hW] at hw
  cases r2 with
  | error m2 =>
    simp only at hw
    injection hw with hm
    rw [hm]
    rfl
  | ok _ => exact absurd hw (by simp)

/--
C7: when the interactive login never completes within the timeout
window (120 polls, 5 seconds apart, i.e. 10 minutes), the session's
result is the login-timeout failure, the browser resource is released
(closed exactly once), and no portfolio snapshot is returned.
-/
theorem c7_login_timeout (env : Env) (h1 : env.requireOk = true)
    (h2 : env.launchOk = true) (h3 : env.pageOk = true) (h4 : env.gotoLoginOk = true)
    (hp : ∀ k, k < 120 → env.loginPoll k = false) :
    (performAutomatedScraping env).2 = .fail timeoutMsg ∧
    (performAutomatedScraping env).1.closeCalls = 1 ∧
    ∀ hs msg, (performAutomatedScraping env).2 ≠ .ok hs msg := by
  have hclose := closeCalls_one env h1 h2
  have hfail : (performAutomatedScraping env).2 = .fail timeoutMsg := by
    unfold performAutomatedScraping
    rw [init_ok_spec env _ h1 h2 h3]
    exact afterInit_fail_of_wl env _ timeoutMsg
      (wl_timeout_spec env _ h4 hp)
  refine ⟨hfail, hclose, ?_⟩
  intro hs msg hok
  rw [hfail] at hok
  exact absurd hok (by simp)

/-- Witness for C7: an environment in which every login poll reports
"not yet logged in". -/
theorem c7_login_timeout_witness :
    (performAutomatedScraping
      { requireOk := true, launchOk := true, pageOk := true, gotoLoginOk := true,
        gotoHomeOk := true, clickOk := true, gotoLogin2Ok := true,
        loginPoll := fun _ => false, navOut := fun _ => .hasHold, scrollOk := true,
        extractOk := true, fragments := [], closeOk := true }).2 = .fail timeoutMsg ∧
    (performAutomatedScraping
      { requireOk := true, launchOk := true, pageOk := true, gotoLoginOk := true,
        gotoHomeOk := true, clickOk := true, gotoLogin2Ok := true,
        loginPoll := fun _ => false, navOut := fun _ => .hasHold, scrollOk := true,
        extractOk := true, fragments := [], closeOk := true }).1.closeCalls = 1 :=
  ⟨(c7_login_timeout _ rfl rfl rfl rfl (fun _ _ => rfl)).1,
   (c7_login_timeout _ rfl rfl rfl rfl (fun _ _ => rfl)).2.1⟩

lemma loginLoop_first (poll : ℕ → Bool) (s : RS) (hp0 : poll 0 = true) :
    loginLoop poll 0 120 s = (emit 35 s, .ok ()) := by
  rw [show (120 : ℕ) = 119 + 1 from rfl]
  unfold loginLoop
  rw [hp0]
  simp

lemma wl_ok_spec (env : Env) (s : RS) (h4 : env.gotoLoginOk = true)
    (hp0 : env.loginPoll 0 = true) :
    waitForUserLogin env s = (emit 35 (emit 25 (emit 15 s)), .ok ()) := by
  unfold waitForUserLogin
  rw [loginNavRes_ok env h4, loginLoop_first env.loginPoll _ hp0]

lemma nav_ok_spec (env : Env) (s : RS) (hnav : ∃ k, k < 4 ∧ env.navOut k = .hasHold) :
    (navigateToHoldings env s).2 = .ok () ∧
    (navigateToHoldings env s).1.events = s.events ++ [40, 50] ∧
    (navigateToHoldings env s).1.browser = s.browser ∧
    (navigateToHoldings env s).1.closeCalls = s.closeCalls := by
  obtain ⟨k, hk, hko⟩ := hnav
  have ht := navLoop_true_of env.navOut holdingsUrls 0 (emit 40 s)
    ⟨k, by simp only [holdingsUrls, List.length_cons, List.length_nil]; omega,
     by simpa using hko⟩
  have hs := navLoop_spec env.navOut holdingsUrls 0 (emit 40 s)
  unfold navigateToHoldings
  rcases hN : navLoop env.navOut holdingsUrls 0 (emit 40 s) with ⟨s2, b⟩
  rw [hN] at ht hs
  simp only at ht
  subst ht
  refine ⟨rfl, ?_, hs.1, hs.2.1⟩
  have he := hs.2.2.1
  simp only [if_true] at he
  show s2.events = s.events ++ [40, 50]
  rw [he]
  simp [emit]

lemma scrape_ok_spec (env : Env) (s : RS) (h5 : env.scrollOk = true)
    (h6 : env.extractOk = true) :
    scrapeHoldingsStep env s = (emit 80 (emit 60 s), .ok (extractHoldings env.fragments)) := by
  unfold scrapeHoldingsStep
  rw [h5, h6]
  simp

lemma close_ok_events (env : Env) (s : RS) (hb : s.browser = true)
    (hco : env.closeOk = true) :
    (closeBrowser env s).1.events = s.events ++ [95, 100] := by
  unfold closeBrowser
  rw [hb, hco]
  simp [emit]

lemma afterNav_fail_events (env : Env) (s : RS) (hE : ∀ x ∈ s.events, x ≤ (80 : ℚ))
    (m : String) (h : (afterNav env s).2 = .fail m) :
    (afterNav env s).1.events.getLast? = some 0 ∧
    (100 : ℚ) ∉ (afterNav env s).1.events := by
  unfold afterNav at h ⊢
  rcases hS : scrapeHoldingsStep env s with ⟨s4, r4⟩
  have hE4 : ∀ x ∈ s4.events, x ≤ (80 : ℚ) := by
    have := scrape_events_le env s hE
    rw [hS] at this
    exact this
  rw [hS] at h
  cases r4 with
  | error m2 =>
    obtain ⟨hgl, hnm, -, -⟩ := runCatch_spec m2 s4 hE4
    exact ⟨hgl, hnm⟩
  | ok hs => exact RunResult.noConfusion h

lemma afterLogin_fail_events (env : Env) (s : RS) (hE : ∀ x ∈ s.events, x ≤ (80 : ℚ))
    (m : String) (h : (afterLogin env s).2 = .fail m) :
    (afterLogin env s).1.events.getLast? = some 0 ∧
    (100 : ℚ) ∉ (afterLogin env s).1.events := by
  unfold afterLogin at h ⊢
  rcases hN : navigateToHoldings env s with ⟨s3, r3⟩
  have hE3 : ∀ x ∈ s3.events, x ≤ (80 : ℚ) := by
    have := nav_events_le env s hE
    rw [hN] at this
    exact this
  rw [hN] at h
  cases r3 with
  | error m2 =>
    obtain ⟨hgl, hnm, -, -⟩ := runCatch_spec m2 s3 hE3
    exact ⟨hgl, hnm⟩
  | ok _ => exact afterNav_fail_events env s3 hE3 m h

lemma afterInit_fail_events (env : Env) (s : RS) (hE : ∀ x ∈ s.events, x ≤ (80 : ℚ))
    (m : String) (h : (afterInit env s).2 = .fail m) :
    (afterInit env s).1.events.getLast? = some 0 ∧
    (100 : ℚ) ∉ (afterInit env s).1.events := by
  unfold afterInit at h ⊢
  rcases hW : waitForUserLogin env s with ⟨s2, r2⟩
  have hE2 : ∀ x ∈ s2.events, x ≤ (80 : ℚ) := by
    have := wl_events_le env s hE
    rw [hW] at this
    exact this
  rw [hW] at h
  cases r2 with
  | error m2 =>
    obtain ⟨hgl, hnm, -, -⟩ := runCatch_spec m2 s2 hE2
    exact ⟨hgl, hnm⟩
  | ok _ => exact afterLogin_fail_events env s2 hE2 m h

/--
C6, amended.  The progress sequence is NOT monotone in general (see the
counterexample): but (first part) on a session in which the browser
initializes, the login is detected at the very first poll, some
navigation candidate shows holdings, and extraction and close succeed,
the emitted percentages are exactly
`[0, 5, 10, 15, 25, 35, 40, 50, 60, 80, 95, 100]`, non-decreasing and
ending at 100; and (second part) on any failed session the final update
is 0 and the value 100 is never emitted.
-/
theorem c6_progress_amended :
    (∀ env : Env, env.requireOk = true → env.launchOk = true → env.pageOk = true →
      env.gotoLoginOk = true → env.loginPoll 0 = true →
      (∃ k, k < 4 ∧ env.navOut k = .hasHold) →
      env.scrollOk = true → env.extractOk = true → env.closeOk = true →
      ((performAutomatedScraping env).1.events =
        [0, 5, 10, 15, 25, 35, 40, 50, 60, 80, 95, 100] ∧
       List.Chain' (· ≤ ·) (performAutomatedScraping env).1.events ∧
       (performAutomatedScraping env).1.events.getLast? = some 100)) ∧
    (∀ env m, (performAutomatedScraping env).2 = .fail m →
      ((performAutomatedScraping env).1.events.getLast? = some 0 ∧
       (100 : ℚ) ∉ (performAutomatedScraping env).1.events)) := by
  constructor
  · intro env h1 h2 h3 h4 hp0 hnav h5 h6 hco
    have hev : (performAutomatedScraping env).1.events =
        [0, 5, 10, 15, 25, 35, 40, 50, 60, 80, 95, 100] := by
      unfold performAutomatedScraping
      rw [init_ok_spec env _ h1 h2 h3]
      show (afterInit env _).1.events = _
      unfold afterInit
      rw [wl_ok_spec env _ h4 hp0]
      show (afterLogin env _).1.events = _
      unfold afterLogin
      rcases hN : navigateToHoldings env
          (emit 35 (emit 25 (emit 15 (emit 10
            { emit 5 (emit 0 initRS) with browser := true })))) with ⟨s3, r3⟩
      obtain ⟨ho, he, hbp, hcp⟩ := nav_ok_spec env
        (emit 35 (emit 25 (emit 15 (emit 10
          { emit 5 (emit 0 initRS) with browser := true })))) hnav
      rw [hN] at ho he hbp hcp
      cases r3 with
      | error m => exact absurd ho (by simp)
      | ok _ =>
        show (afterNav env s3).1.events = _
        unfold afterNav
        rw [scrape_ok_spec env s3 h5 h6]
        show (closeBrowser env (emit 80 (emit 60 s3))).1.events = _
        rw [close_ok_events env _ (by simp [emit]; rw [hbp]; rfl) hco]
        simp only [emit_events]
        rw [show (s3, Except.ok ()).1.events = s3.events from rfl] at he
        rw [he]
        simp [emit, initRS]
    refine ⟨hev, ?_, ?_⟩ <;> rw [hev]
    · norm_num [List.chain'_cons]
    · rfl
  · intro env m h
    unfold performAutomatedScraping at h ⊢
    rcases hI : initializeInteractiveBrowser env (emit 0 initRS) with ⟨s1, r1⟩
    have hE1 : ∀ x ∈ s1.events, x ≤ (80 : ℚ) := by
      have := init_events_le env (emit 0 initRS) (by
        intro x hx
        simp only [emit_events, initRS, List.nil_append, List.mem_singleton] at hx
        subst hx
        norm_num)
      rw [hI] at this
      exact this
    rw [hI] at h
    cases r1 with
    | error m1 =>
      obtain ⟨hgl, hnm, -, -⟩ := runCatch_spec m1 s1 hE1
      exact ⟨hgl, hnm⟩
    | ok _ => exact afterInit_fail_events env s1 hE1 m h

/--
C6 counterexample: a session in which the user logs in shortly after
one minute of polling SUCCEEDS (result `ok`, final update 100), yet its
emitted percentage sequence is `[0, 5, 10, 15, 25, 21, 35, …]` — the
still-waiting update 21 follows the page-loaded update 25, so the
sequence is not monotonically non-decreasing.
-/
theorem c6_progress_counterexample :
    (performAutomatedScraping lateLoginEnv).2 =
      .ok [] "Successfully scraped 0 holdings with comprehensive data from Groww" ∧
    (performAutomatedScraping lateLoginEnv).1.events =
      [0, 5, 10, 15, 25, 21, 35, 40, 50, 60, 80, 95, 100] ∧
    ¬ List.Chain' (· ≤ ·) (performAutomatedScraping lateLoginEnv).1.events := by
  refine ⟨by decide, by decide, ?_⟩
  rw [show (performAutomatedScraping lateLoginEnv).1.events =
    [0, 5, 10, 15, 25, 21, 35, 40, 50, 60, 80, 95, 100] from by decide]
  norm_num [List.chain'_cons]

/-- Witness for C6 amended: the success part at an immediate-login
session, the failure part at a session whose puppeteer require fails. -/
theorem c6_progress_amended_witness :
    ((performAutomatedScraping fastLoginEnv).1.events =
       [0, 5, 10, 15, 25, 35, 40, 50, 60, 80, 95, 100] ∧
     List.Chain' (· ≤ ·) (performAutomatedScraping fastLoginEnv).1.events ∧
     (performAutomatedScraping fastLoginEnv).1.events.getLast? = some 100) ∧
    ((performAutomatedScraping noPuppeteerEnv).1.events.getLast? = some 0 ∧
     (100 : ℚ) ∉ (performAutomatedScraping noPuppeteerEnv).1.events) :=
  ⟨c6_progress_amended.1 fastLoginEnv rfl rfl rfl rfl rfl ⟨0, by decide, rfl⟩
    rfl rfl rfl,
   c6_progress_amended.2 noPuppeteerEnv
    "Puppeteer is not installed. Please install puppeteer dependencies first."
    (by decide)⟩

/--
C8 counterexample: when every candidate URL fails to load, the failure
message of the session is `Unable to navigate to holdings page` — it
does not report "which URLs were tried": no tried URL occurs as a
substring of the message.  (The URLs are only console-logged.)
-/
theorem c8_nav_counterexample :
    (performAutomatedScraping allNavFailEnv).2 = .fail navFailMsg ∧
    (∀ u ∈ holdingsUrls, ∃ e ∈ (performAutomatedScraping allNavFailEnv).1.logs,
      containsSub u.data e.data = true) ∧
    (∀ u ∈ holdingsUrls, containsSub u.data navFailMsg.data = false) := by
  refine ⟨by decide, ?_, by decide⟩
  decide

/--
C8, amended.  `navigateToHoldings` tries the four candidate URLs in
order, logging `Trying URL: <url>` for each candidate reached and
stopping at the first that shows holdings; if some candidate within the
list succeeds the method returns normally, and if all four fail it
throws exactly `Unable to navigate to holdings page` — having logged an
attempt for every candidate — and the session then fails with that same
message; the thrown message itself names none of the URLs.
-/
theorem c8_navigation_amended :
    (∀ env s, (navigateToHoldings env s).1.logs =
      s.logs ++ navLogs env.navOut holdingsUrls 0) ∧
    (∀ env s, (∃ k, k < 4 ∧ env.navOut k = .hasHold) →
      (navigateToHoldings env s).2 = .ok ()) ∧
    (∀ env s, (∀ k, k < 4 → env.navOut k ≠ .hasHold) →
      ((navigateToHoldings env s).2 = .error navFailMsg ∧
       ∀ u ∈ holdingsUrls, ("Trying URL: " ++ u) ∈ (navigateToHoldings env s).1.logs)) ∧
    (∀ u ∈ holdingsUrls, containsSub u.data navFailMsg.data = false) ∧
    (∀ env, env.requireOk = true → env.launchOk = true → env.pageOk = true →
      env.gotoLoginOk = true → env.loginPoll 0 = true →
      (∀ k, k < 4 → env.navOut k ≠ .hasHold) →
      (performAutomatedScraping env).2 = .fail navFailMsg) := by
  have hlogs : ∀ env : Env, ∀ s, (navigateToHoldings env s).1.logs =
      s.logs ++ navLogs env.navOut holdingsUrls 0 := by
    intro env s
    have hs := navLoop_spec env.navOut holdingsUrls 0 (emit 40 s)
    unfold navigateToHoldings
    rcases hN : navLoop env.navOut holdingsUrls 0 (emit 40 s) with ⟨s2, b⟩
    rw [hN] at hs
    cases b
    · show (emit 0 s2).logs = _
      rw [show (emit 0 s2).logs = s2.logs from rfl, hs.2.2.2]
      rfl
    · show s2.logs = _
      rw [hs.2.2.2]
      rfl
  have hfail : ∀ env : Env, ∀ s, (∀ k, k < 4 → env.navOut k ≠ .hasHold) →
      (navigateToHoldings env s).2 = .error navFailMsg := by
    intro env s hno
    have hf := navLoop_false_of env.navOut holdingsUrls 0 (emit 40 s)
      (fun k hk => by
        rw [Nat.zero_add]
        exact hno k (by
          simp only [holdingsUrls, List.length_cons, List.length_nil] at hk
          omega))
    unfold navigateToHoldings
    rcases hN : navLoop env.navOut holdingsUrls 0 (emit 40 s) with ⟨s2, b⟩
    rw [hN] at hf
    cases b
    · rfl
    · exact absurd hf (by simp)
  refine ⟨hlogs, ?_, ?_, by decide, ?_⟩
  · intro env s hnav
    exact (nav_ok_spec env s hnav).1
  · intro env s hno
    refine ⟨hfail env s hno, ?_⟩
    intro u hu
    rw [hlogs env s]
    refine List.mem_append_right _ ?_
    exact navLogs_tries env.navOut holdingsUrls 0
      (fun k hk => by
        rw [Nat.zero_add]
        exact hno k (by
          simp only [holdingsUrls, List.length_cons, List.length_nil] at hk
          omega)) u hu
  · intro env h1 h2 h3 h4 hp0 hno
    unfold performAutomatedScraping
    rw [init_ok_spec env _ h1 h2 h3]
    show (afterInit env _).2 = _
    unfold afterInit
    rw [wl_ok_spec env _ h4 hp0]
    show (afterLogin env _).2 = _
    unfold afterLogin
    rcases hN : navigateToHoldings env
        (emit 35 (emit 25 (emit 15 (emit 10
          { emit 5 (emit 0 initRS) with browser := true })))) with ⟨s3, r3⟩
    have hf := hfail env
      (emit 35 (emit 25 (emit 15 (emit 10
        { emit 5 (emit 0 initRS) with browser := true })))) hno
    rw [hN] at hf
    cases r3 with
    | error m2 =>
      have hm : m2 = navFailMsg := by
        injection hf
      rw [hm]
      rfl
    | ok _ => exact absurd hf (by simp)

/-- Witness for C8 amended: the per-session part at a session in which
every candidate URL errors, and the success part at a session whose
first candidate shows holdings. -/
theorem c8_navigation_amended_witness :
    (navigateToHoldings fastLoginEnv initRS).2 = .ok () ∧
    (performAutomatedScraping allNavFailEnv).2 = .fail navFailMsg ∧
    ((navigateToHoldings allNavFailEnv initRS).2 = .error navFailMsg ∧
     ∀ u ∈ holdingsUrls,
       ("Trying URL: " ++ u) ∈ (navigateToHoldings allNavFailEnv initRS).1.logs) :=
  ⟨c8_navigation_amended.2.1 fastLoginEnv initRS ⟨0, by decide, rfl⟩,
   c8_navigation_amended.2.2.2.2 allNavFailEnv rfl rfl rfl rfl rfl
     (fun k _ hc => NavOut.noConfusion hc),
   c8_navigation_amended.2.2.1 allNavFailEnv initRS (fun k _ hc => NavOut.noConfusion hc)⟩

lemma processLoop_spec (aid : String) :
    ∀ hs saved store, processLoop aid hs saved store =
      (saved ++ (hs.map (mkStock aid)).filter stockValidate,
       store ++ (hs.map (mkStock aid)).filter stockValidate) := by
  intro hs
  induction hs with
  | nil => intro saved store; simp [processLoop]
  | cons h rest ih =>
    intro saved store
    by_cases hv : stockValidate (mkStock aid h) = true
    · simp [processLoop, hv, ih, List.filter_cons]
    · simp only [Bool.not_eq_true] at hv
      simp [processLoop, hv, ih, List.filter_cons]

lemma not_mem_removeProgressCallback (sid : String) (reg : List String) :
    sid ∉ removeProgressCallback sid reg := by
  intro hmem
  have := (List.mem_filter.mp hmem).2
  simp at this

/--
C9, amended.  When both pre-`try` guards pass (the real scraper is
available and the account exists), the session's registration is absent
from the registry on every exit of `syncGrowwAccountRealTime`, success
or thrown error; but when a guard throws — scraper unavailable or
account not found — the method exits with an error WITHOUT touching the
registry, so a registration made for that session survives it.
-/
theorem c9_cleanup_amended :
    (∀ env sid reg, env.realScraperOk = true → env.accountExists = true →
      sid ∉ (syncGrowwAccountRealTime env sid reg).1) ∧
    (∀ env sid reg, env.realScraperOk = false ∨ env.accountExists = false →
      ((syncGrowwAccountRealTime env sid reg).1 = reg ∧
       ∃ m, (syncGrowwAccountRealTime env sid reg).2 = .error m)) := by
  constructor
  · intro env sid reg h1 h2
    simp only [syncGrowwAccountRealTime, h1, h2]
    simp only [Bool.true_eq_false, if_false]
    split_ifs <;> exact not_mem_removeProgressCallback sid reg
  · intro env sid reg h
    by_cases h1 : env.realScraperOk = false
    · constructor
      · simp [syncGrowwAccountRealTime, h1]
      · exact ⟨"Real scraper not available. Install Puppeteer: npm run install-scraping",
          by simp [syncGrowwAccountRealTime, h1]⟩
    · have h2 : env.accountExists = false := by
        rcases h with h | h
        · exact absurd h h1
        · exact h
      have hx : env.realScraperOk = true := by
        rcases hr : env.realScraperOk
        · exact absurd hr h1
        · rfl
      constructor
      · simp [syncGrowwAccountRealTime, hx, h2]
      · exact ⟨"Account not found", by simp [syncGrowwAccountRealTime, hx, h2]⟩

/-- Witness for C9 amended: cleanup at a session whose scraping fails
inside the `try`, guard-throw at a session whose account is missing. -/
theorem c9_cleanup_amended_witness :
    "s1" ∉ (syncGrowwAccountRealTime ⟨true, true, false, true, true⟩ "s1" ["s1", "s2"]).1 ∧
    ((syncGrowwAccountRealTime ⟨true, false, true, true, true⟩ "s1" ["s1"]).1 = ["s1"] ∧
     ∃ m, (syncGrowwAccountRealTime ⟨true, false, true, true, true⟩ "s1" ["s1"]).2 =
       .error m) :=
  ⟨c9_cleanup_amended.1 ⟨true, true, false, true, true⟩ "s1" ["s1", "s2"] rfl rfl,
   c9_cleanup_amended.2 ⟨true, false, true, true, true⟩ "s1" ["s1"] (Or.inr rfl)⟩

/--
C9 counterexample: register a callback for a session and run the sync
with the real scraper unavailable — the method throws from the guard
that precedes the `try`/`catch`, and the registration is still present
afterwards: it outlives the failed session.
-/
theorem c9_cleanup_counterexample :
    (syncGrowwAccountRealTime ⟨false, true, true, true, true⟩ "session-1"
        (setProgressCallback "session-1" [])).2 =
      .error "Real scraper not available. Install Puppeteer: npm run install-scraping" ∧
    "session-1" ∈ (syncGrowwAccountRealTime ⟨false, true, true, true, true⟩ "session-1"
        (setProgressCallback "session-1" [])).1 :=
  ⟨rfl, by decide⟩

/--
C10: `processScrapedHoldings` saves exactly those transformed holdings
that pass `Stock.validate` — the saved list and the new store entries
are the valid stocks in order, invalid ones are skipped without
aborting the batch — and therefore every persisted stock has a
non-empty (even after trimming) symbol and name and non-negative
quantity, purchase price and current price.
-/
theorem c10_persist_validated :
    (∀ aid existing holdings,
      (processScrapedHoldings aid existing holdings).1 =
        (holdings.map (mkStock aid)).filter stockValidate ∧
      (processScrapedHoldings aid existing holdings).2 =
        existing.filter (fun st => !(st.accountId == aid)) ++
          (holdings.map (mkStock aid)).filter stockValidate) ∧
    (∀ aid existing holdings st,
      st ∈ (processScrapedHoldings aid existing holdings).1 →
      (jsTrim st.symbol ≠ "" ∧ jsTrim st.name ≠ "" ∧
       0 ≤ st.quantity ∧ 0 ≤ st.purchasePrice ∧ 0 ≤ st.currentPrice)) := by
  have heq : ∀ aid : String, ∀ existing holdings,
      (processScrapedHoldings aid existing holdings).1 =
        (holdings.map (mkStock aid)).filter stockValidate ∧
      (processScrapedHoldings aid existing holdings).2 =
        existing.filter (fun st => !(st.accountId == aid)) ++
          (holdings.map (mkStock aid)).filter stockValidate := by
    intro aid existing holdings
    unfold processScrapedHoldings
    rw [processLoop_spec]
    exact ⟨by simp, rfl⟩
  refine ⟨heq, ?_⟩
  intro aid existing holdings st hmem
  rw [(heq aid existing holdings).1] at hmem
  have hv := (List.mem_filter.mp hmem).2
  simp only [stockValidate, Bool.and_eq_true, Bool.not_eq_true', beq_eq_false_iff_ne,
    ne_eq, decide_eq_false_iff_not, not_lt] at hv
  obtain ⟨⟨⟨⟨⟨-, -, hsym⟩, -, hnm⟩, hq⟩, hp⟩, hcp⟩ := hv
  exact ⟨hsym, hnm, hq, hp, hcp⟩

/-- Witness for C10 at a single-holding batch. -/
theorem c10_persist_validated_witness :
    jsTrim (mkStock "acct-1" c10Holding).symbol ≠ "" ∧
    jsTrim (mkStock "acct-1" c10Holding).name ≠ "" ∧
    0 ≤ (mkStock "acct-1" c10Holding).quantity ∧
    0 ≤ (mkStock "acct-1" c10Holding).purchasePrice ∧
    0 ≤ (mkStock "acct-1" c10Holding).currentPrice :=
  c10_persist_validated.2 "acct-1" [] [c10Holding] (mkStock "acct-1" c10Holding)
    (by
      rw [show (processScrapedHoldings "acct-1" [] [c10Holding]).1 =
        [mkStock "acct-1" c10Holding] from by decide]
      exact List.mem_singleton.mpr rfl)

end StockFusion
